import Mathlib

/-!
Verification development for the SecureChat server core
(`server/connection.py`, `server/router.py`, `server/registry.py`,
`server/secure_channel.py`, `server/db_async.py`, `server/auth.py`).

The Python code is shallowly embedded: JSON values become an inductive
type, per-session state becomes a record, the mutable online-user
registry becomes an association list threaded through a step relation,
and the side effects a handler performs (replies, deliveries, database
writes, registry registrations) become explicit event lists.  External
library primitives that are not part of the repository (AES-GCM from
the `cryptography` package, bcrypt) are abstracted behind explicit
function parameters; everything else (base64, UTF-8, SHA-1/UUIDv5,
the routing and dispatch logic, the registry) is translated directly
from the source.
-/

/-- A JSON value as produced by `json.loads`.  Object fields model a
Python dict parsed from JSON, so keys are unique. -/
inductive JVal where
  | jnull
  | jbool (b : Bool)
  | jnum (n : Int)
  | jstr (s : String)
  | jarr (elems : List JVal)
  | jobj (fields : List (String × JVal))
deriving Repr

/-- Field access in a parsed JSON object (`d[k]` / `d.get(k)` on a dict
with unique keys): the first binding of the key, if any. -/
def jget (fields : List (String × JVal)) (k : String) : Option JVal :=
  match fields with
  | [] => none
  | (k', v) :: rest => if k' = k then some v else jget rest k

/-- Python `msg_type == "<literal>"` where `msg_type` came from
`envelope.get("type")`: true exactly when the value is that string. -/
def isType (v : Option JVal) (s : String) : Bool :=
  match v with
  | some (.jstr s') => s' == s
  | _ => false

/-- Python `str()` of a scalar JSON value, as used by the f-string in
`_process_message`.  Containers are rendered with their elements'
`str()`; string quoting/escaping inside containers is not modelled
(no envelope type reaching the f-string is a container). -/
def pyStr : JVal → String
  | .jnull => "None"
  | .jbool true => "True"
  | .jbool false => "False"
  | .jnum n => toString n
  | .jstr s => s
  | .jarr _ => "[...]"
  | .jobj _ => "{...}"

/-- Python `str()` of `envelope.get("type")`, which is `None` when the
key is absent. -/
def pyStrOpt : Option JVal → String
  | none => "None"
  | some v => pyStr v

/-- The per-connection mutable state of `ClientSession` that the
authentication and routing logic reads and writes
(`user_id`, `full_name`, `email`, `is_authenticated`). -/
structure SessionSt where
  user_id : Option String
  full_name : Option String
  email : Option String
  is_authenticated : Bool
deriving Repr, DecidableEq

/-- A freshly constructed `ClientSession` (`__init__`). -/
def freshSession : SessionSt :=
  { user_id := none, full_name := none, email := none, is_authenticated := false }

/-- `None`-or-string session attribute rendered as the JSON value the
server serialises it to. -/
def optStr : Option String → JVal
  | some s => .jstr s
  | none => .jnull

/-- Observable server actions performed while handling one inner
envelope: an encrypted reply to the handling session (`send_json` on
`self`), a delivery to another session (`send_json` on the recipient
session, identified by its session id), a database write
(`db.store_message`), and a registry registration
(`registry.register_user`). -/
inductive Ev where
  | reply (env : JVal)
  | deliver (sid : Nat) (env : JVal)
  | store (sender_id : Option String) (recipient_id : JVal) (text : String)
  | register (uid : String)
deriving Repr

/-- `{"type": "response", "payload": {"status": .., "message": ..}}`. -/
def responseEnv (status msg : String) : JVal :=
  .jobj [("type", .jstr "response"),
         ("payload", .jobj [("status", .jstr status), ("message", .jstr msg)])]

/-- The `new_message` envelope built by `Router.route_chat_message` for
an online recipient. -/
def new_message_env (sender_id sender_name : Option String) (text : JVal) : JVal :=
  .jobj [("type", .jstr "new_message"),
         ("payload", .jobj [("sender_id", optStr sender_id),
                            ("sender_name", optStr sender_name),
                            ("text", text)])]

/-- `Router.route_chat_message(sender_session, envelope)`.

`reg` models `registry.get_session_by_id` (registry keys are user-id
strings, so a non-string `recipient_id` never finds a session; an
unhashable `recipient_id` — a JSON array or object — raises `TypeError`,
which the handler catches as a malformed envelope).  The result is
`some events` for normal completion and `none` for an uncaught
exception (`message_text.encode` on a non-string in `store_message`),
which closes the session. -/
def route_chat_message (sender : SessionSt) (envelope : JVal)
    (reg : String → Option Nat) : Option (List Ev) :=
  match envelope with
  | .jobj envFields =>
    match jget envFields "payload" with
    | some (.jobj pf) =>
      match jget pf "recipient_id", jget pf "text" with
      | some rid, some text =>
        match rid with
        | .jarr _ =>
          some [.reply (responseEnv "error" "Malformed chat envelope.")]
        | .jobj _ =>
          some [.reply (responseEnv "error" "Malformed chat envelope.")]
        | .jstr r =>
          match reg r with
          | some recipientSid =>
            some [.deliver recipientSid
                    (new_message_env sender.user_id sender.full_name text)]
          | none =>
            match text with
            | .jstr t =>
              some [.store sender.user_id rid t,
                    .reply (responseEnv "info" "Recipient is offline. Message stored.")]
            | _ => none
        | _ =>
          -- a hashable non-string key is never in the registry: offline path
          match text with
          | .jstr t =>
            some [.store sender.user_id rid t,
                  .reply (responseEnv "info" "Recipient is offline. Message stored.")]
          | _ => none
      | _, _ => some [.reply (responseEnv "error" "Malformed chat envelope.")]
    | some _ => some [.reply (responseEnv "error" "Malformed chat envelope.")]
    | none => some [.reply (responseEnv "error" "Malformed chat envelope.")]
  | _ => some [.reply (responseEnv "error" "Malformed chat envelope.")]

/-- Server-side world visible to the registry: the alive sessions
(keyed by an abstract session id standing for the object reference) and
`UserRegistry._online_users`, the dict mapping user ids to sessions. -/
structure World where
  sessions : List (Nat × SessionSt)
  registry : List (String × Nat)
deriving Repr

/-- `UserRegistry.register_user`: dict assignment, overwriting any
prior entry for the same user id. -/
def register_user (user_id : String) (sid : Nat)
    (reg : List (String × Nat)) : List (String × Nat) :=
  (user_id, sid) :: reg.filter (fun e => !(e.1 == user_id))

/-- `UserRegistry.unregister_user`: delete the entry if present. -/
def unregister_user (user_id : String)
    (reg : List (String × Nat)) : List (String × Nat) :=
  reg.filter (fun e => !(e.1 == user_id))

/-- `UserRegistry.get_session_by_id`: dict `.get`. -/
def get_session_by_id (user_id : String) (reg : List (String × Nat)) : Option Nat :=
  List.lookup user_id reg

/-- `UserRegistry.get_online_users_list`: one `{"id", "full_name"}`
object per registered session whose `is_authenticated` is true. -/
def get_online_users_list (w : World) : List JVal :=
  w.registry.filterMap (fun e =>
    match List.lookup e.2 w.sessions with
    | some s =>
      if s.is_authenticated then
        some (.jobj [("id", optStr s.user_id), ("full_name", optStr s.full_name)])
      else none
    | none => none)

/-- `ClientSession._process_message` (the AUTH dispatch): `chat` goes to
the router, `whoisonline` is answered from the registry, anything else
gets the unknown-command error.  `none` models an uncaught exception
(which closes the session); `some evs` means the dispatch loop
continues after emitting `evs`. -/
def process_message (w : World) (sess : SessionSt) (envelope : JVal) : Option (List Ev) :=
  match envelope with
  | .jobj fs =>
    let msg_type := jget fs "type"
    if isType msg_type "chat" then
      route_chat_message sess envelope (fun r => get_session_by_id r w.registry)
    else if isType msg_type "whoisonline" then
      some [.reply (.jobj [("type", .jstr "response"),
                           ("payload", .jobj [("status", .jstr "ok"),
                                              ("users", .jarr (get_online_users_list w))])])]
    else
      some [.reply (responseEnv "error" ("Unknown command type: " ++ pyStrOpt msg_type))]
  | _ => none

/-- The user row fields `_perform_login` reads from a successful
`authenticate` result. -/
structure UserRec where
  id : String
  full_name : String
  email : String
deriving Repr, DecidableEq

/-- The database/bcrypt collaborators of the session, which live outside
the routing core (`Authenticator.authenticate`, `auth.hash_password`,
`Database.add_user`).  `authenticate` takes the normalized email and the
raw password JSON value; `add_user` takes the full name JSON value, the
normalized email and the password hash.  An outer `none` models the call
raising (e.g. bcrypt on a non-string password, a database error); such
an exception is not caught by the handlers' `except (KeyError,
TypeError)` and closes the session. -/
structure DbOracle where
  authenticate : String → JVal → Option (Option UserRec)
  hash_password : String → String
  add_user : JVal → String → String → Option (Option String)

/-- Python `email.strip().lower()` whitespace test (ASCII whitespace;
Python also strips some further Unicode whitespace, which is not
modelled). -/
def pyIsSpace (c : Char) : Bool :=
  decide (c.toNat = 32 ∨ c.toNat = 9 ∨ c.toNat = 10 ∨ c.toNat = 13 ∨
    c.toNat = 11 ∨ c.toNat = 12)

/-- Python `str.strip()` (over the modelled whitespace set). -/
def pyStrip (l : List Char) : List Char :=
  ((l.dropWhile pyIsSpace).reverse.dropWhile pyIsSpace).reverse

/-- Python `str.lower()` for a single character (ASCII case folding;
emails are ASCII). -/
def pyLowerChar (c : Char) : Char :=
  if 65 ≤ c.toNat ∧ c.toNat ≤ 90 then Char.ofNat (c.toNat + 32) else c

/-- Python `str.lower()` (over the modelled case-folding set). -/
def pyLower (l : List Char) : List Char := l.map pyLowerChar

/-- `email.strip().lower()` as performed by `_perform_login`,
`_perform_signup` and `Database._generate_user_id`. -/
def normalizeEmail (e : List Char) : List Char := pyLower (pyStrip e)

/-- String form of the normalization, as applied to a JSON string. -/
def normalizeEmailStr (e : String) : String := String.mk (normalizeEmail e.data)

/-- Result of handling one inner envelope: the session state afterwards,
the events emitted, and whether an uncaught exception terminated the
connection loop. -/
structure DispatchOut where
  sess : SessionSt
  evs : List Ev
  crashed : Bool
deriving Repr

/-- `ClientSession._perform_login`.  On success the session records the
user's id/name/email, flips `is_authenticated`, registers with the
registry and replies with the welcome envelope; on authentication
failure it replies with the invalid-credentials error; a missing key or
non-dict payload is caught and answered as malformed; a non-string
email (`.strip()` on a non-string) raises and closes the session. -/
def perform_login (db : DbOracle) (sess : SessionSt) (envelope : JVal) : DispatchOut :=
  match envelope with
  | .jobj fs =>
    match jget fs "payload" with
    | some (.jobj pf) =>
      match jget pf "email", jget pf "password" with
      | some email, some password =>
        match email with
        | .jstr e =>
          match db.authenticate (normalizeEmailStr e) password with
          | some (some u) =>
            { sess := { user_id := some u.id, full_name := some u.full_name,
                        email := some u.email, is_authenticated := true },
              evs := [.register u.id,
                      .reply (.jobj [("type", .jstr "response"),
                                     ("payload", .jobj
                                       [("status", .jstr "ok"),
                                        ("message", .jstr ("Login successful. Welcome, " ++ u.full_name ++ "!")),
                                        ("user_info", .jobj
                                          [("id", .jstr u.id),
                                           ("full_name", .jstr u.full_name),
                                           ("email", .jstr u.email)])])])],
              crashed := false }
          | some none =>
            { sess := sess,
              evs := [.reply (responseEnv "error" "Login failed. Invalid credentials.")],
              crashed := false }
          | none => { sess := sess, evs := [], crashed := true }
        | _ => { sess := sess, evs := [], crashed := true }
      | _, _ =>
        { sess := sess,
          evs := [.reply (responseEnv "error" "Malformed login envelope.")],
          crashed := false }
    | some _ =>
      { sess := sess,
        evs := [.reply (responseEnv "error" "Malformed login envelope.")],
        crashed := false }
    | none =>
      { sess := sess,
        evs := [.reply (responseEnv "error" "Malformed login envelope.")],
        crashed := false }
  | _ => { sess := sess, evs := [], crashed := true }

/-- `ClientSession._perform_signup`.  The session state is never
touched: the handler only hashes the password, calls `db.add_user` and
replies.  A non-string password makes `hash_password` raise, closing
the session; a non-string email (`.strip()`) likewise. -/
def perform_signup (db : DbOracle) (sess : SessionSt) (envelope : JVal) : DispatchOut :=
  match envelope with
  | .jobj fs =>
    if !(isType (jget fs "type") "signup") then
      { sess := sess,
        evs := [.reply (responseEnv "error" "Invalid type for signup")],
        crashed := false }
    else
      match jget fs "payload" with
      | some (.jobj pf) =>
        match jget pf "full_name", jget pf "email", jget pf "password" with
        | some full_name, some email, some password =>
          match email with
          | .jstr e =>
            match password with
            | .jstr pw =>
              match db.add_user full_name (normalizeEmailStr e) (db.hash_password pw) with
              | some (some _) =>
                { sess := sess,
                  evs := [.reply (responseEnv "ok" "Sign-up successful. Please login to authenticate.")],
                  crashed := false }
              | some none =>
                { sess := sess,
                  evs := [.reply (responseEnv "error" "Sign-up failed. Email already exists.")],
                  crashed := false }
              | none => { sess := sess, evs := [], crashed := true }
            | _ => { sess := sess, evs := [], crashed := true }
          | _ => { sess := sess, evs := [], crashed := true }
        | _, _, _ =>
          { sess := sess,
            evs := [.reply (responseEnv "error" "Malformed sign-up envelope.")],
            crashed := false }
      | some _ =>
        { sess := sess,
          evs := [.reply (responseEnv "error" "Malformed sign-up envelope.")],
          crashed := false }
      | none =>
        { sess := sess,
          evs := [.reply (responseEnv "error" "Malformed sign-up envelope.")],
          crashed := false }
  | _ => { sess := sess, evs := [], crashed := true }

/-- The UNAUTH arm of `ClientSession.handle_connection`'s dispatch loop
(lines 110-125): only `login` and `signup` are dispatched; every other
inner type gets the not-authenticated error and the session stays
unauthenticated. -/
def unauth_dispatch (db : DbOracle) (sess : SessionSt) (envelope : JVal) : DispatchOut :=
  match envelope with
  | .jobj fs =>
    let msg_type := jget fs "type"
    if isType msg_type "login" then
      perform_login db sess envelope
    else if isType msg_type "signup" then
      perform_signup db sess envelope
    else
      { sess := sess,
        evs := [.reply (responseEnv "error" "Not authenticated. Send 'login' or 'signup'.")],
        crashed := false }
  | _ => { sess := sess, evs := [], crashed := true }

/-- The teardown in `handle_connection`'s `finally` block:
`if self.is_authenticated and self.user_id: unregister_user(self.user_id)`
(`and self.user_id` is Python truthiness, so an empty-string id would
skip the unregister). -/
def teardownReg (s : SessionSt) (reg : List (String × Nat)) : List (String × Nat) :=
  if s.is_authenticated then
    match s.user_id with
    | some u => if u = "" then reg else unregister_user u reg
    | none => reg
  else reg

/-- World after a connection is accepted: a fresh unauthenticated
session appears. -/
def connectWorld (w : World) (sid : Nat) : World :=
  ⟨(sid, freshSession) :: w.sessions, w.registry⟩

/-- World after a session's `_perform_login` succeeds: its fields are
set, `is_authenticated` flips, and `register_user` writes the registry
entry (evicting any prior entry for the same user id). -/
def loginWorld (w : World) (sid : Nat) (u name email : String) : World :=
  ⟨w.sessions.map (fun e =>
      if e.1 = sid then (sid, ⟨some u, some name, some email, true⟩) else e),
   register_user u sid w.registry⟩

/-- World after a connection closes: the `finally` teardown unregisters
the session's user id (whatever session that entry now points to) and
the session is gone. -/
def disconnectWorld (w : World) (sid : Nat) (s : SessionSt) : World :=
  ⟨w.sessions.filter (fun e => !(e.1 == sid)), teardownReg s w.registry⟩

/-- Registry-relevant transitions of the server, assembled from
`handle_connection` and `_perform_login`: a connection is accepted, a
session authenticates, or a connection closes.  User ids come from
`Database._generate_user_id` and are 36-character UUID strings, hence
nonempty. -/
inductive Step : World → World → Prop where
  | connect (w : World) (sid : Nat)
      (hfresh : List.lookup sid w.sessions = none) :
      Step w (connectWorld w sid)
  | loginOk (w : World) (sid : Nat) (s : SessionSt) (u name email : String)
      (hs : List.lookup sid w.sessions = some s)
      (hna : s.is_authenticated = false)
      (hu : u ≠ "") :
      Step w (loginWorld w sid u name email)
  | disconnect (w : World) (sid : Nat) (s : SessionSt)
      (hs : List.lookup sid w.sessions = some s) :
      Step w (disconnectWorld w sid s)

/-- Worlds reachable from server startup (no sessions, empty registry). -/
inductive Reachable : World → Prop where
  | init : Reachable ⟨[], []⟩
  | step {w w' : World} : Reachable w → Step w w' → Reachable w'

/-- Sessions whose state is AUTH. -/
def authCount (w : World) : Nat :=
  (w.sessions.filter (fun e => e.2.is_authenticated)).length

/-- Every registry entry points to an alive session that is
authenticated under exactly that user id. -/
def entryOk (w : World) : Prop :=
  ∀ u sid, (u, sid) ∈ w.registry →
    ∃ s, List.lookup sid w.sessions = some s ∧
      s.is_authenticated = true ∧ s.user_id = some u

/-- The registry invariant maintained by every reachable world:
session keys are distinct (object identities), registry keys are
distinct (dict), no entry carries the empty user id (ids are UUID
strings), and every entry points to a session authenticated under that
id. -/
def RegInv (w : World) : Prop :=
  (w.sessions.map Prod.fst).Nodup ∧
  (w.registry.map Prod.fst).Nodup ∧
  (∀ sid, ("", sid) ∉ w.registry) ∧
  entryOk w

/-- Base64 alphabet: sextet value to ASCII code. -/
def b64Char (n : Nat) : Nat :=
  if n < 26 then 65 + n
  else if n < 52 then 97 + (n - 26)
  else if n < 62 then 48 + (n - 52)
  else if n = 62 then 43
  else 47

/-- Base64 alphabet: ASCII code back to sextet value. -/
def b64Val (c : Nat) : Option Nat :=
  if 65 ≤ c ∧ c ≤ 90 then some (c - 65)
  else if 97 ≤ c ∧ c ≤ 122 then some (26 + (c - 97))
  else if 48 ≤ c ∧ c ≤ 57 then some (52 + (c - 48))
  else if c = 43 then some 62
  else if c = 47 then some 63
  else none

/-- `base64.b64encode` over byte values, producing ASCII codes
(61 is the pad character). -/
def b64encode : List Nat → List Nat
  | [] => []
  | [a] => [b64Char (a / 4), b64Char (a % 4 * 16), 61, 61]
  | [a, b] => [b64Char (a / 4), b64Char (a % 4 * 16 + b / 16), b64Char (b % 16 * 4), 61]
  | a :: b :: c :: rest =>
    b64Char (a / 4) :: b64Char (a % 4 * 16 + b / 16) ::
      b64Char (b % 16 * 4 + c / 64) :: b64Char (c % 64) :: b64encode rest

/-- `base64.b64decode` over ASCII codes, on properly padded input
(Python's lenient discarding of foreign characters is not modelled;
every blob the server decodes was produced by `b64encode`). -/
def b64decode : List Nat → Option (List Nat)
  | [] => some []
  | w :: x :: y :: z :: rest =>
    match b64Val w, b64Val x with
    | some a, some b =>
      if y = 61 ∧ z = 61 ∧ rest = [] then
        some [a * 4 + b / 16]
      else
        match b64Val y with
        | some c =>
          if z = 61 ∧ rest = [] then
            some [a * 4 + b / 16, b % 16 * 16 + c / 4]
          else
            match b64Val z with
            | some d =>
              (b64decode rest).map
                (fun ds => (a * 4 + b / 16) :: (b % 16 * 16 + c / 4) :: (c % 4 * 64 + d) :: ds)
            | none => none
        | none => none
    | _, _ => none
  | _ => none

/-- All entries are byte values. -/
def Bytes (l : List Nat) : Prop := ∀ b ∈ l, b < 256

/-- ASCII codes of a Python `str` holding a base64 blob. -/
def strBytes (s : String) : List Nat := s.data.map Char.toNat

/-- Flip bit `j` of a byte string (bit `j % 8` of byte `j / 8`). -/
def flipBit (j : Nat) (l : List Nat) : List Nat :=
  l.set (j / 8) (l.getD (j / 8) 0 ^^^ 2 ^ (j % 8))

/-- Interface of the `cryptography` package's `AESGCM` primitive
(external to the repository): `enc key nonce plaintext` returns
ciphertext-with-tag, `dec` returns `none` when the library raises
(`InvalidTag`). -/
structure AESGCMImpl where
  enc : List Nat → List Nat → List Nat → List Nat
  dec : List Nat → List Nat → List Nat → Option (List Nat)

/-- AEAD functional correctness: decryption inverts encryption under
the same 32-byte key and 12-byte nonce. -/
def AESGCMCorrect (A : AESGCMImpl) : Prop :=
  ∀ key nonce pt, key.length = 32 → nonce.length = 12 →
    A.dec key nonce (A.enc key nonce pt) = some pt

/-- AEAD integrity: flipping any single bit of `nonce || ciphertext`
makes decryption (after the server's 12-byte nonce split) fail. -/
def AESGCMTamper (A : AESGCMImpl) : Prop :=
  ∀ key nonce pt j, key.length = 32 → nonce.length = 12 →
    j < 8 * (nonce ++ A.enc key nonce pt).length →
    A.dec key ((flipBit j (nonce ++ A.enc key nonce pt)).take 12)
              ((flipBit j (nonce ++ A.enc key nonce pt)).drop 12) = none

/-- AEAD ciphertexts are byte strings. -/
def AESGCMBytes (A : AESGCMImpl) : Prop :=
  ∀ key nonce pt, Bytes nonce → Bytes pt → Bytes (A.enc key nonce pt)

/-- `SecureChannel`: holds the session's AES key. -/
structure SecureChannel where
  aes_key : List Nat

/-- `SecureChannel.__init__`: raises `ValueError` unless the key is
exactly 32 bytes. -/
def SecureChannel.mk? (aes_key : List Nat) : Option SecureChannel :=
  if aes_key.length = 32 then some ⟨aes_key⟩ else none

/-- UTF-8 encoding of one character (`str.encode("utf-8")`). -/
def utf8EncodeChar (c : Char) : List Nat :=
  if c.toNat < 128 then [c.toNat]
  else if c.toNat < 2048 then [192 + c.toNat / 64, 128 + c.toNat % 64]
  else if c.toNat < 65536 then
    [224 + c.toNat / 4096, 128 + c.toNat / 64 % 64, 128 + c.toNat % 64]
  else
    [240 + c.toNat / 262144, 128 + c.toNat / 4096 % 64, 128 + c.toNat / 64 % 64,
     128 + c.toNat % 64]

/-- UTF-8 encoding of a string as byte values. -/
def utf8Encode (s : List Char) : List Nat := (s.map utf8EncodeChar).flatten

/-- A UTF-8 continuation byte. -/
def contByte (b : Nat) : Bool := 128 ≤ b && b < 192

/-- One step of strict UTF-8 decoding (`bytes.decode("utf-8")`):
decode the character starting at byte `b1`, returning it and the
remaining bytes; `none` models `UnicodeDecodeError` (stray or missing
continuation bytes, overlong forms, surrogates, out-of-range values). -/
def utf8DecodeChar (b1 : Nat) (t1 : List Nat) : Option (Char × List Nat) :=
  if b1 < 128 then some (Char.ofNat b1, t1)
  else if b1 < 192 then none
  else if b1 < 224 then
    match t1 with
    | b2 :: t2 =>
      if contByte b2 then
        if 128 ≤ (b1 - 192) * 64 + (b2 - 128) then
          some (Char.ofNat ((b1 - 192) * 64 + (b2 - 128)), t2)
        else none
      else none
    | [] => none
  else if b1 < 240 then
    match t1 with
    | b2 :: b3 :: t3 =>
      if contByte b2 && contByte b3 then
        if 2048 ≤ (b1 - 224) * 4096 + (b2 - 128) * 64 + (b3 - 128) ∧
            ((b1 - 224) * 4096 + (b2 - 128) * 64 + (b3 - 128) < 55296 ∨
             57344 ≤ (b1 - 224) * 4096 + (b2 - 128) * 64 + (b3 - 128)) then
          some (Char.ofNat ((b1 - 224) * 4096 + (b2 - 128) * 64 + (b3 - 128)), t3)
        else none
      else none
    | _ => none
  else if b1 < 245 then
    match t1 with
    | b2 :: b3 :: b4 :: t4 =>
      if contByte b2 && contByte b3 && contByte b4 then
        if 65536 ≤ (b1 - 240) * 262144 + (b2 - 128) * 4096 + (b3 - 128) * 64 +
              (b4 - 128) ∧
            (b1 - 240) * 262144 + (b2 - 128) * 4096 + (b3 - 128) * 64 +
              (b4 - 128) < 1114112 then
          some (Char.ofNat ((b1 - 240) * 262144 + (b2 - 128) * 4096 +
            (b3 - 128) * 64 + (b4 - 128)), t4)
        else none
      else none
    | _ => none
  else none

/-- Strict UTF-8 decoding of a whole byte string. -/
def utf8Decode : List Nat → Option (List Char)
  | [] => some []
  | b1 :: t1 =>
    match h : utf8DecodeChar b1 t1 with
    | some (c, rest) => (utf8Decode rest).map (fun cs => c :: cs)
    | none => none
termination_by l => l.length
decreasing_by
  unfold utf8DecodeChar at h
  repeat' split at h
  all_goals try exact (Option.noConfusion h)
  all_goals
    (injection h with h'
     injection h' with h1 h2
     subst h2
     simp only [List.length_cons]
     omega)

/-- `SecureChannel.encrypt`: UTF-8 encode, AEAD-encrypt under a fresh
12-byte nonce (`os.urandom(12)`, passed explicitly here), prepend the
nonce, base64-encode. -/
def SecureChannel.encrypt (A : AESGCMImpl) (ch : SecureChannel)
    (nonce : List Nat) (plaintext : List Char) : List Nat :=
  b64encode (nonce ++ A.enc ch.aes_key nonce (utf8Encode plaintext))

/-- `SecureChannel.decrypt`: base64-decode, split off the first 12
bytes as the nonce, AEAD-decrypt, UTF-8 decode; any failure is the
single opaque error (`none`). -/
def SecureChannel.decrypt (A : AESGCMImpl) (ch : SecureChannel)
    (encrypted_blob : List Nat) : Option (List Char) :=
  match b64decode encrypted_blob with
  | none => none
  | some bs =>
    match A.dec ch.aes_key (bs.take 12) (bs.drop 12) with
    | none => none
    | some ptBytes => utf8Decode ptBytes

/-- The first frame sent through a newly established channel. -/
def handshake_complete_env : JVal :=
  .jobj [("type", .jstr "handshake_complete"),
         ("payload", .jobj [("message", .jstr "Secure channel established.")])]

/-- `ClientSession._handle_key_exchange`: extract `payload["key"]`,
base64-decode it, RSA-OAEP-decrypt it (the private-key operation is the
`rsaDecrypt` parameter; `none` models a raise), build the
`SecureChannel`, and confirm through the new channel.  Every failure is
caught and yields no channel and no frames. -/
def handle_key_exchange (rsaDecrypt : List Nat → Option (List Nat))
    (envelope : JVal) : Option SecureChannel × List Ev :=
  match envelope with
  | .jobj fs =>
    match jget fs "payload" with
    | some (.jobj pf) =>
      match jget pf "key" with
      | some (.jstr encrypted_key_b64) =>
        match b64decode (strBytes encrypted_key_b64) with
        | some encrypted_key =>
          match rsaDecrypt encrypted_key with
          | some aes_key =>
            match SecureChannel.mk? aes_key with
            | some ch => (some ch, [.reply handshake_complete_env])
            | none => (none, [])
          | none => (none, [])
        | none => (none, [])
      | _ => (none, [])
    | _ => (none, [])
  | _ => (none, [])

/-- Phase 1 of `handle_connection` after `handshake_start` is sent:
the received envelope must be a `key_exchange` that decrypts to a valid
key, otherwise the session is closed with no further frames. -/
def handshake_phase (rsaDecrypt : List Nat → Option (List Nat))
    (envelope : JVal) : Option SecureChannel × List Ev :=
  match envelope with
  | .jobj fs =>
    if isType (jget fs "type") "key_exchange" then
      handle_key_exchange rsaDecrypt envelope
    else (none, [])
  | _ => (none, [])

/-- Truncation to a 32-bit word. -/
def w32 (n : Nat) : Nat := n % 4294967296

/-- 32-bit left rotation of a word. -/
def rotl (b n : Nat) : Nat := (n * 2 ^ b) % 4294967296 + n / 2 ^ (32 - b)

/-- Big-endian 4-byte encoding of a word. -/
def be32 (n : Nat) : List Nat :=
  [n / 16777216 % 256, n / 65536 % 256, n / 256 % 256, n % 256]

/-- Big-endian 8-byte encoding. -/
def be64 (n : Nat) : List Nat := be32 (n / 4294967296) ++ be32 n

/-- SHA-1 message padding. -/
def sha1Pad (msg : List Nat) : List Nat :=
  msg ++ 128 :: List.replicate ((119 - msg.length % 64) % 64) 0 ++ be64 (8 * msg.length)

/-- Big-endian bytes to 32-bit words. -/
def toWords : List Nat → List Nat
  | a :: b :: c :: d :: rest => (a * 16777216 + b * 65536 + c * 256 + d) :: toWords rest
  | _ => []

/-- SHA-1 message-schedule extension, keeping the schedule reversed so
the words 3, 8, 14 and 16 places back are at fixed offsets. -/
def buildSched : Nat → List Nat → List Nat
  | 0, rw => rw
  | k + 1, rw =>
    buildSched k (rotl 1 (rw.getD 2 0 ^^^ rw.getD 7 0 ^^^ rw.getD 13 0 ^^^ rw.getD 15 0) :: rw)

/-- SHA-1 working state. -/
structure SHA1St where
  a : Nat
  b : Nat
  c : Nat
  d : Nat
  e : Nat

/-- SHA-1 round function selector. -/
def sha1F (i b c d : Nat) : Nat :=
  if i < 20 then (b &&& c) ||| ((4294967295 - b) &&& d)
  else if i < 40 then b ^^^ c ^^^ d
  else if i < 60 then (b &&& c) ||| (b &&& d) ||| (c &&& d)
  else b ^^^ c ^^^ d

/-- SHA-1 round constants. -/
def sha1K (i : Nat) : Nat :=
  if i < 20 then 1518500249
  else if i < 40 then 1859775393
  else if i < 60 then 2400959708
  else 3395469782

/-- One SHA-1 round. -/
def sha1Round (i w : Nat) (st : SHA1St) : SHA1St :=
  ⟨w32 (rotl 5 st.a + sha1F i st.b st.c st.d + st.e + sha1K i + w),
   st.a, rotl 30 st.b, st.c, st.d⟩

/-- SHA-1 compression of one 64-byte chunk. -/
def sha1Compress (st : SHA1St) (chunk : List Nat) : SHA1St :=
  let ws := (buildSched 64 (toWords chunk).reverse).reverse
  let f := (List.zip (List.range 80) ws).foldl (fun acc p => sha1Round p.1 p.2 acc) st
  ⟨w32 (st.a + f.a), w32 (st.b + f.b), w32 (st.c + f.c), w32 (st.d + f.d), w32 (st.e + f.e)⟩

/-- Iterate the compression over all chunks. -/
def sha1Chunks : Nat → List Nat → SHA1St → SHA1St
  | 0, _, st => st
  | k + 1, bytes, st => sha1Chunks k (bytes.drop 64) (sha1Compress st (bytes.take 64))

/-- SHA-1 digest (20 bytes) of a byte string, modelling `hashlib.sha1`
as used by `uuid.uuid5`. -/
def sha1 (msg : List Nat) : List Nat :=
  let padded := sha1Pad msg
  let st := sha1Chunks (padded.length / 64) padded
    ⟨1732584193, 4023233417, 2562383102, 271733878, 3285377520⟩
  be32 st.a ++ be32 st.b ++ be32 st.c ++ be32 st.d ++ be32 st.e

/-- Lowercase hex digit. -/
def hexDigit (n : Nat) : Char :=
  if n < 10 then Char.ofNat (48 + n) else Char.ofNat (87 + n)

/-- Two lowercase hex digits of a byte. -/
def hexByte (b : Nat) : List Char := [hexDigit (b / 16), hexDigit (b % 16)]

/-- Lowercase hex of a byte string. -/
def hexBytes (bs : List Nat) : List Char := (bs.map hexByte).flatten

/-- The bytes of `uuid.NAMESPACE_DNS`
(6ba7b810-9dad-11d1-80b4-00c04fd430c8). -/
def namespaceDNS : List Nat :=
  [107, 167, 184, 16, 157, 173, 17, 209, 128, 180, 0, 192, 79, 212, 48, 200]

/-- `str(uuid.uuid5(ns, name))`: SHA-1 of namespace bytes followed by
the name's UTF-8 bytes, truncated to 16 bytes, with the version nibble
set to 5 and the RFC 4122 variant bits set, rendered as the dashed
lowercase hex form. -/
def uuid5 (ns nameBytes : List Nat) : String :=
  let h := (sha1 (ns ++ nameBytes)).take 16
  let digest := (h.set 6 (h.getD 6 0 % 16 + 80)).set 8 (h.getD 8 0 % 64 + 128)
  String.mk (hexBytes (digest.take 4) ++ '-' ::
    (hexBytes ((digest.drop 4).take 2) ++ '-' ::
      (hexBytes ((digest.drop 6).take 2) ++ '-' ::
        (hexBytes ((digest.drop 8).take 2) ++ '-' :: hexBytes (digest.drop 10)))))

/-- `Database._generate_user_id`: deterministic UUIDv5 of the
normalized email over the DNS namespace. -/
def generate_user_id (email : List Char) : String :=
  uuid5 namespaceDNS (utf8Encode (normalizeEmail email))

/-- XOR checksum of a byte string (used only by the witness AEAD). -/
def xorsum (l : List Nat) : Nat := l.foldr (fun a b => a ^^^ b) 0

/-- Tag of the witness AEAD: the nonce followed by an XOR checksum and
three constant bytes (16 bytes for a 12-byte nonce). -/
def toyTag (nonce pt : List Nat) : List Nat := nonce ++ [xorsum pt, 17, 17, 17]

/-- A concrete AEAD satisfying the three contracts, used to witness the
SecureChannel theorems: the "ciphertext" is the plaintext followed by a
tag that binds the nonce and an XOR checksum, so correctness holds and
any single-bit flip is detected. -/
def toyAEAD : AESGCMImpl where
  enc := fun _ nonce pt => pt ++ toyTag nonce pt
  dec := fun _ nonce ct =>
    if ct.length < 16 then none
    else if ct.drop (ct.length - 16) = toyTag nonce (ct.take (ct.length - 16)) then
      some (ct.take (ct.length - 16))
    else none

/-- A database oracle whose every call fails softly (no user matches,
every email already exists); used to instantiate theorems about the
failure paths. -/
def dbNone : DbOracle :=
  { authenticate := fun _ _ => some none,
    hash_password := fun _ => "",
    add_user := fun _ _ _ => some none }

/-- C1: whatever the chat envelope contains, the only `new_message`
envelope the router can deliver carries the originating session's
authenticated `user_id` and `full_name`. -/
theorem C1_sender_id_from_session (sender : SessionSt) (envelope : JVal)
    (reg : String → Option Nat) (uid name : String) (evs : List Ev)
    (sid : Nat) (denv : JVal)
    (hauth : sender.is_authenticated = true)
    (hid : sender.user_id = some uid)
    (hname : sender.full_name = some name)
    (hroute : route_chat_message sender envelope reg = some evs)
    (hmem : Ev.deliver sid denv ∈ evs) :
    ∃ text, denv = .jobj [("type", .jstr "new_message"),
      ("payload", .jobj [("sender_id", .jstr uid),
                         ("sender_name", .jstr name),
                         ("text", text)])] := by
  unfold route_chat_message at hroute
  repeat' split at hroute
  all_goals try exact Option.noConfusion hroute
  all_goals injection hroute with h
  all_goals subst h
  all_goals try simp at hmem
  all_goals obtain ⟨h1, h2⟩ := hmem
  all_goals subst h2
  all_goals exact ⟨_, by rw [hid, hname]; rfl⟩

/-- Witness for C1 at a concrete spoofing attempt: the payload carries a
forged `sender_id`, yet the delivered envelope names the session's id. -/
theorem C1_sender_id_from_session_witness :
    ∃ text, new_message_env (some "u1") (some "Alice") (.jstr "hi") =
      JVal.jobj [("type", .jstr "new_message"),
        ("payload", .jobj [("sender_id", .jstr "u1"),
                           ("sender_name", .jstr "Alice"),
                           ("text", text)])] :=
  C1_sender_id_from_session ⟨some "u1", some "Alice", some "a@x", true⟩
    (.jobj [("payload", .jobj [("sender_id", .jstr "forged"),
                               ("recipient_id", .jstr "u2"),
                               ("text", .jstr "hi")])])
    (fun r => if r = "u2" then some 7 else none) "u1" "Alice"
    [.deliver 7 (new_message_env (some "u1") (some "Alice") (.jstr "hi"))]
    7 (new_message_env (some "u1") (some "Alice") (.jstr "hi"))
    rfl rfl rfl (by rfl) (List.mem_singleton.mpr rfl)

/-- C6: a well-formed chat envelope is either delivered exactly once to
the online recipient's session (no store, no reply to the sender) or
stored exactly once with exactly the offline info reply — never both. -/
theorem C6_deliver_xor_persist (sender : SessionSt) (reg : String → Option Nat)
    (envFields pf : List (String × JVal)) (r t : String)
    (hpay : jget envFields "payload" = some (.jobj pf))
    (hrid : jget pf "recipient_id" = some (.jstr r))
    (htext : jget pf "text" = some (.jstr t)) :
    (∀ sid, reg r = some sid →
      route_chat_message sender (.jobj envFields) reg =
        some [.deliver sid (new_message_env sender.user_id sender.full_name (.jstr t))]) ∧
    (reg r = none →
      route_chat_message sender (.jobj envFields) reg =
        some [.store sender.user_id (.jstr r) t,
              .reply (responseEnv "info" "Recipient is offline. Message stored.")]) := by
  constructor
  · intro sid hsid
    simp only [route_chat_message, hpay, hrid, htext, hsid]
  · intro hnone
    simp only [route_chat_message, hpay, hrid, htext, hnone]

/-- Witness for C6: the same chat envelope delivered when user u2 is
registered and stored with the offline reply when the registry is
empty. -/
theorem C6_deliver_xor_persist_witness :
    ((∀ sid, (if "u2" = "u2" then some 7 else none : Option Nat) = some sid →
      route_chat_message ⟨some "u1", some "Alice", some "a@x", true⟩
        (.jobj [("payload", .jobj [("recipient_id", .jstr "u2"), ("text", .jstr "hi")])])
        (fun r => if r = "u2" then some 7 else none) =
        some [.deliver sid (new_message_env (some "u1") (some "Alice") (.jstr "hi"))]) ∧
     ((if "u2" = "u2" then some 7 else none : Option Nat) = none →
      route_chat_message ⟨some "u1", some "Alice", some "a@x", true⟩
        (.jobj [("payload", .jobj [("recipient_id", .jstr "u2"), ("text", .jstr "hi")])])
        (fun r => if r = "u2" then some 7 else none) =
        some [.store (some "u1") (.jstr "u2") "hi",
              .reply (responseEnv "info" "Recipient is offline. Message stored.")])) ∧
    ((∀ sid, (none : Option Nat) = some sid →
      route_chat_message ⟨some "u1", some "Alice", some "a@x", true⟩
        (.jobj [("payload", .jobj [("recipient_id", .jstr "u2"), ("text", .jstr "hi")])])
        (fun _ => none) =
        some [.deliver sid (new_message_env (some "u1") (some "Alice") (.jstr "hi"))]) ∧
     ((none : Option Nat) = none →
      route_chat_message ⟨some "u1", some "Alice", some "a@x", true⟩
        (.jobj [("payload", .jobj [("recipient_id", .jstr "u2"), ("text", .jstr "hi")])])
        (fun _ => none) =
        some [.store (some "u1") (.jstr "u2") "hi",
              .reply (responseEnv "info" "Recipient is offline. Message stored.")])) :=
  ⟨C6_deliver_xor_persist ⟨some "u1", some "Alice", some "a@x", true⟩
      (fun r => if r = "u2" then some 7 else none)
      [("payload", .jobj [("recipient_id", .jstr "u2"), ("text", .jstr "hi")])]
      [("recipient_id", .jstr "u2"), ("text", .jstr "hi")] "u2" "hi" rfl rfl rfl,
   C6_deliver_xor_persist ⟨some "u1", some "Alice", some "a@x", true⟩
      (fun _ => none)
      [("payload", .jobj [("recipient_id", .jstr "u2"), ("text", .jstr "hi")])]
      [("recipient_id", .jstr "u2"), ("text", .jstr "hi")] "u2" "hi" rfl rfl rfl⟩

/-- C7: in UNAUTH, any inner envelope whose type is neither `login` nor
`signup` gets exactly the not-authenticated error and leaves the
session untouched (still unauthenticated, no fields set, no registry
registration, no crash). -/
theorem C7_unauth_rejects_other_types (db : DbOracle) (sess : SessionSt)
    (fs : List (String × JVal))
    (hlogin : isType (jget fs "type") "login" = false)
    (hsignup : isType (jget fs "type") "signup" = false) :
    unauth_dispatch db sess (.jobj fs) =
      ⟨sess, [.reply (responseEnv "error" "Not authenticated. Send 'login' or 'signup'.")],
       false⟩ := by
  unfold unauth_dispatch
  simp [hlogin, hsignup]

/-- Witness for C7 at a concrete pre-auth `chat` envelope. -/
theorem C7_unauth_rejects_other_types_witness :
    unauth_dispatch dbNone freshSession
      (.jobj [("type", .jstr "chat"),
              ("payload", .jobj [("recipient_id", .jstr "u2"), ("text", .jstr "hi")])]) =
      ⟨freshSession,
       [.reply (responseEnv "error" "Not authenticated. Send 'login' or 'signup'.")],
       false⟩ :=
  C7_unauth_rejects_other_types dbNone freshSession
    [("type", .jstr "chat"),
     ("payload", .jobj [("recipient_id", .jstr "u2"), ("text", .jstr "hi")])]
    rfl rfl

/-- C8: a signup (success, failure or malformed) never touches the
session and never registers; a failed login likewise, and on a
well-formed payload whose credentials do not authenticate the reply is
exactly the invalid-credentials error with the session unchanged. -/
theorem C8_signup_and_failed_login_preserve_state (db : DbOracle) (sess : SessionSt)
    (envelope : JVal) :
    ((perform_signup db sess envelope).sess = sess ∧
      ∀ u, Ev.register u ∉ (perform_signup db sess envelope).evs) ∧
    ((∀ e p u, db.authenticate e p ≠ some (some u)) →
      (perform_login db sess envelope).sess = sess ∧
      ∀ u, Ev.register u ∉ (perform_login db sess envelope).evs) ∧
    (∀ fs pf e p, envelope = .jobj fs →
      jget fs "payload" = some (.jobj pf) →
      jget pf "email" = some (.jstr e) →
      jget pf "password" = some p →
      db.authenticate (normalizeEmailStr e) p = some none →
      perform_login db sess envelope =
        ⟨sess, [.reply (responseEnv "error" "Login failed. Invalid credentials.")], false⟩) := by
  refine ⟨?_, ?_, ?_⟩
  · unfold perform_signup
    repeat' split
    all_goals simp
  · intro hfail
    unfold perform_login
    repeat' split
    all_goals first
      | (simp; done)
      | (exfalso; apply hfail; assumption)
  · intro fs pf e p hfs hpay hemail hpw hauthn
    subst hfs
    simp only [perform_login, hpay, hemail, hpw, hauthn]

/-- Witness for C8: a concrete failed login under the all-failures
database oracle leaves the fresh session unchanged and replies with the
invalid-credentials error. -/
theorem C8_signup_and_failed_login_preserve_state_witness :
    perform_login dbNone freshSession
        (.jobj [("type", .jstr "login"),
                ("payload", .jobj [("email", .jstr "A@x "), ("password", .jstr "p1")])]) =
      ⟨freshSession, [.reply (responseEnv "error" "Login failed. Invalid credentials.")],
       false⟩ :=
  (C8_signup_and_failed_login_preserve_state dbNone freshSession
      (.jobj [("type", .jstr "login"),
              ("payload", .jobj [("email", .jstr "A@x "), ("password", .jstr "p1")])])).2.2
    [("type", .jstr "login"),
     ("payload", .jobj [("email", .jstr "A@x "), ("password", .jstr "p1")])]
    [("email", .jstr "A@x "), ("password", .jstr "p1")]
    "A@x " (.jstr "p1") rfl rfl rfl rfl rfl

/-- C3 counterexample: on a concrete authenticated session, a `logout`
inner envelope does NOT terminate the dispatch loop and DOES elicit a
response — the unknown-command error — contradicting the claim that the
server treats `logout` as a terminator with no response. -/
theorem C3_counterexample_logout_not_terminator :
    process_message ⟨[], []⟩ ⟨some "u1", some "Alice", some "a@x", true⟩
        (.jobj [("type", .jstr "logout")]) =
      some [.reply (responseEnv "error" "Unknown command type: logout")] ∧
    [Ev.reply (responseEnv "error" "Unknown command type: logout")] ≠ ([] : List Ev) :=
  ⟨rfl, by simp⟩

/-- C3 as amended: an authenticated session receiving a `logout` inner
envelope gets the `Unknown command type: logout` error reply and the
dispatch loop continues (the session closes only when the client
disconnects). -/
theorem C3_amended_logout_is_unknown_command (w : World) (sess : SessionSt)
    (fs : List (String × JVal))
    (htype : jget fs "type" = some (.jstr "logout")) :
    process_message w sess (.jobj fs) =
      some [.reply (responseEnv "error" "Unknown command type: logout")] := by
  simp only [process_message, htype]
  rfl

/-- Witness for the amended C3 at a concrete envelope. -/
theorem C3_amended_logout_is_unknown_command_witness :
    process_message ⟨[(7, ⟨some "u1", some "Alice", some "a@x", true⟩)], [("u1", 7)]⟩
        ⟨some "u1", some "Alice", some "a@x", true⟩
        (.jobj [("type", .jstr "logout"), ("payload", .jobj [])]) =
      some [.reply (responseEnv "error" "Unknown command type: logout")] :=
  C3_amended_logout_is_unknown_command _ _
    [("type", .jstr "logout"), ("payload", .jobj [])] rfl

/-- C9: if the RSA-decrypted key-exchange key is not 32 bytes long, the
handshake yields no channel and sends no frame (the session is then
closed by `handle_connection`). -/
theorem C9_bad_key_length_closes_session (rsaDecrypt : List Nat → Option (List Nat))
    (fs pf : List (String × JVal)) (b64s : String) (encKey aesKey : List Nat)
    (htype : jget fs "type" = some (.jstr "key_exchange"))
    (hpay : jget fs "payload" = some (.jobj pf))
    (hkey : jget pf "key" = some (.jstr b64s))
    (hvdec : b64decode (strBytes b64s) = some encKey)
    (hrsa : rsaDecrypt encKey = some aesKey)
    (hlen : aesKey.length ≠ 32) :
    handshake_phase rsaDecrypt (.jobj fs) = (none, []) := by
  have ht : isType (jget fs "type") "key_exchange" = true := by rw [htype]; rfl
  simp only [handshake_phase, handle_key_exchange, SecureChannel.mk?, ht, hpay, hkey,
    hvdec, hrsa, if_true]
  simp [hlen]

/-- Witness for C9: a key exchange whose decrypted key has 31 bytes. -/
theorem C9_bad_key_length_closes_session_witness :
    handshake_phase (fun _ => some (List.replicate 31 0))
      (.jobj [("type", .jstr "key_exchange"),
              ("payload", .jobj [("key", .jstr "AAAA")])]) = (none, []) :=
  C9_bad_key_length_closes_session (fun _ => some (List.replicate 31 0))
    [("type", .jstr "key_exchange"), ("payload", .jobj [("key", .jstr "AAAA")])]
    [("key", .jstr "AAAA")] "AAAA" [0, 0, 0] (List.replicate 31 0)
    rfl rfl rfl (by rfl) rfl (by simp)

/-- A successful association-list lookup exhibits a member. -/
theorem lookup_mem {α β : Type} [BEq α] [LawfulBEq α] {k : α} {v : β} :
    ∀ {l : List (α × β)}, List.lookup k l = some v → (k, v) ∈ l
  | [], h => by simp at h
  | (k', v') :: t, h => by
    cases hbe : k == k' with
    | true =>
      simp only [List.lookup_cons, hbe] at h
      injection h with hv
      subst hv
      exact (eq_of_beq hbe) ▸ List.Mem.head _
    | false =>
      simp only [List.lookup_cons, hbe] at h
      exact List.Mem.tail _ (lookup_mem h)

/-- A failed association-list lookup means the key is absent. -/
theorem lookup_none_not_mem {α β : Type} [BEq α] [LawfulBEq α] {k : α} :
    ∀ {l : List (α × β)}, List.lookup k l = none → k ∉ l.map Prod.fst
  | [], _ => by simp
  | (k', v') :: t, h => by
    cases hbe : k == k' with
    | true =>
      simp only [List.lookup_cons, hbe] at h
      exact Option.noConfusion h
    | false =>
      simp only [List.lookup_cons, hbe] at h
      simp only [List.map_cons, List.mem_cons]
      rintro (hk | hk)
      · exact absurd (beq_iff_eq.mpr hk) (by simp [hbe])
      · exact lookup_none_not_mem h hk

/-- Looking up the deleted key after a dict deletion fails. -/
theorem lookup_filter_self {α β : Type} [BEq α] [LawfulBEq α] (u : α) :
    ∀ (l : List (α × β)), List.lookup u (l.filter (fun e => !(e.1 == u))) = none
  | [] => rfl
  | (k', v') :: t => by
    by_cases hk : k' = u
    · subst hk
      simp only [List.filter_cons, beq_self_eq_true, Bool.not_true, Bool.false_eq_true,
        if_false]
      exact lookup_filter_self k' t
    · have hbe : (k' == u) = false := beq_eq_false_iff_ne.mpr hk
      simp only [List.filter_cons, hbe, Bool.not_false, if_true]
      rw [List.lookup_cons,
        show (u == k') = false from beq_eq_false_iff_ne.mpr (Ne.symm hk)]
      exact lookup_filter_self u t

/-- Dict deletion of another key preserves a lookup. -/
theorem lookup_filter_ne {α β : Type} [BEq α] [LawfulBEq α] {k u : α} (hk : k ≠ u) :
    ∀ (l : List (α × β)),
      List.lookup k (l.filter (fun e => !(e.1 == u))) = List.lookup k l
  | [] => rfl
  | (k', v') :: t => by
    by_cases hk' : k' = u
    · subst hk'
      simp only [List.filter_cons, beq_self_eq_true, Bool.not_true, Bool.false_eq_true,
        if_false]
      rw [lookup_filter_ne hk t, List.lookup_cons,
        show (k == k') = false from beq_eq_false_iff_ne.mpr hk]
    · have hbe : (k' == u) = false := beq_eq_false_iff_ne.mpr hk'
      simp only [List.filter_cons, hbe, Bool.not_false, if_true]
      rw [List.lookup_cons, List.lookup_cons]
      cases k == k' with
      | true => rfl
      | false => exact lookup_filter_ne hk t

/-- The login update rewrites only the entry keyed `sid`, so the key
list is unchanged. -/
theorem keys_map_update (sid : Nat) (nS : SessionSt) :
    ∀ (l : List (Nat × SessionSt)),
      (l.map (fun e => if e.1 = sid then (sid, nS) else e)).map Prod.fst =
        l.map Prod.fst
  | [] => rfl
  | (k', v') :: t => by
    simp only [List.map_cons]
    by_cases hk : k' = sid
    · subst hk; rw [if_pos rfl, keys_map_update k' nS t]
    · rw [if_neg (by simpa using hk), keys_map_update sid nS t]

/-- The login update does not affect lookups of other sessions. -/
theorem lookup_map_update_ne {k sid : Nat} (nS : SessionSt) (hk : k ≠ sid) :
    ∀ (l : List (Nat × SessionSt)),
      List.lookup k (l.map (fun e => if e.1 = sid then (sid, nS) else e)) =
        List.lookup k l
  | [] => rfl
  | (k', v') :: t => by
    simp only [List.map_cons]
    by_cases hk' : k' = sid
    · subst hk'
      rw [if_pos rfl, List.lookup_cons, List.lookup_cons,
        show (k == k') = false from beq_eq_false_iff_ne.mpr hk]
      exact lookup_map_update_ne nS hk t
    · rw [if_neg (by simpa using hk'), List.lookup_cons, List.lookup_cons]
      cases k == k' with
      | true => rfl
      | false => exact lookup_map_update_ne nS hk t

/-- The login update rewrites the session it targets. -/
theorem lookup_map_update_self {sid : Nat} {s : SessionSt} (nS : SessionSt) :
    ∀ {l : List (Nat × SessionSt)}, List.lookup sid l = some s →
      List.lookup sid (l.map (fun e => if e.1 = sid then (sid, nS) else e)) =
        some nS
  | [], h => by simp at h
  | (k', v') :: t, h => by
    simp only [List.map_cons]
    cases hbe : sid == k' with
    | true =>
      have hkk : k' = sid := (eq_of_beq hbe).symm
      subst hkk
      rw [if_pos rfl, List.lookup_cons, beq_self_eq_true]
    | false =>
      simp only [List.lookup_cons, hbe] at h
      rw [if_neg (by simpa using (Ne.symm (ne_of_beq_false hbe))), List.lookup_cons, hbe]
      exact lookup_map_update_self nS h

/-- Keys of a filtered association list stay distinct. -/
theorem keys_filter_nodup {α β : Type} (p : α × β → Bool) {l : List (α × β)}
    (h : (l.map Prod.fst).Nodup) : ((l.filter p).map Prod.fst).Nodup :=
  ((List.filter_sublist l).map Prod.fst).nodup h

/-- Under the registry invariant, distinct registry entries point to
distinct authenticated sessions, so the registry can never be larger
than the number of AUTH sessions. -/
theorem registry_length_le_authCount (w : World) (hinv : RegInv w) :
    w.registry.length ≤ authCount w := by
  obtain ⟨hsn, hrn, hne, hok⟩ := hinv
  have hpairs : w.registry.Nodup := List.Nodup.of_map _ hrn
  have hsnd : (w.registry.map Prod.snd).Nodup := by
    refine List.Nodup.map_on ?_ hpairs
    rintro ⟨u1, sd1⟩ hx ⟨u2, sd2⟩ hy hxy
    simp only at hxy
    subst hxy
    obtain ⟨s1, hl1, _, hu1⟩ := hok u1 sd1 hx
    obtain ⟨s2, hl2, _, hu2⟩ := hok u2 sd1 hy
    rw [hl1] at hl2
    injection hl2 with hs12
    subst hs12
    rw [hu1] at hu2
    injection hu2 with hu12
    rw [hu12]
  have hsub : w.registry.map Prod.snd ⊆
      (w.sessions.filter (fun e => e.2.is_authenticated)).map Prod.fst := by
    intro sd hsd
    simp only [List.mem_map] at hsd
    obtain ⟨⟨u, sd'⟩, hmem, rfl⟩ := hsd
    obtain ⟨s, hlook, hauth, _⟩ := hok u sd' hmem
    refine List.mem_map.mpr ⟨(sd', s), ?_, rfl⟩
    exact List.mem_filter.mpr ⟨lookup_mem hlook, by simp [hauth]⟩
  calc w.registry.length
      = (w.registry.map Prod.snd).length := (List.length_map _ _).symm
    _ ≤ ((w.sessions.filter (fun e => e.2.is_authenticated)).map Prod.fst).length :=
        (List.subperm_of_subset hsnd hsub).length_le
    _ = authCount w := List.length_map _ _

/-- Each server transition preserves the registry invariant. -/
theorem inv_step {w w' : World} (hinv : RegInv w) (hstep : Step w w') : RegInv w' := by
  obtain ⟨hsn, hrn, hne, hok⟩ := hinv
  cases hstep with
  | connect sid hfresh =>
    refine ⟨?_, hrn, hne, ?_⟩
    · simp only [connectWorld, List.map_cons]
      exact List.nodup_cons.mpr ⟨lookup_none_not_mem hfresh, hsn⟩
    · intro u sd hmem
      obtain ⟨s, hlook, hauth, huid⟩ := hok u sd hmem
      refine ⟨s, ?_, hauth, huid⟩
      have hne2 : sd ≠ sid := by
        intro h
        subst h
        rw [hlook] at hfresh
        exact Option.noConfusion hfresh
      show List.lookup sd ((sid, freshSession) :: w.sessions) = some s
      rw [List.lookup_cons, show (sd == sid) = false from beq_eq_false_iff_ne.mpr hne2]
      exact hlook
  | loginOk sid s u name email hs hna hu =>
    refine ⟨?_, ?_, ?_, ?_⟩
    · show ((w.sessions.map _).map Prod.fst).Nodup
      rw [keys_map_update]
      exact hsn
    · show (((u, sid) :: _).map Prod.fst).Nodup
      simp only [List.map_cons]
      refine List.nodup_cons.mpr ⟨?_, keys_filter_nodup _ hrn⟩
      intro humem
      simp only [List.mem_map] at humem
      obtain ⟨e, hemem, hefst⟩ := humem
      have := List.of_mem_filter hemem
      rw [hefst] at this
      simp at this
    · intro sd hmem
      rcases List.mem_cons.mp hmem with heq | hmem'
      · exact hu (congrArg Prod.fst heq).symm
      · exact hne sd (List.mem_of_mem_filter hmem')
    · intro u' sd hmem
      rcases List.mem_cons.mp hmem with heq | hmem'
      · injection heq with h1 h2
        subst h1
        subst h2
        exact ⟨_, lookup_map_update_self _ hs, rfl, rfl⟩
      · have hmemreg := List.mem_of_mem_filter hmem'
        have hne' : u' ≠ u := by
          have := List.of_mem_filter hmem'
          simpa using this
        obtain ⟨s', hlook', hauth', huid'⟩ := hok u' sd hmemreg
        have hsd : sd ≠ sid := by
          intro h
          subst h
          rw [hlook'] at hs
          injection hs with hss
          subst hss
          rw [hauth'] at hna
          exact Bool.noConfusion hna
        refine ⟨s', ?_, hauth', huid'⟩
        rw [show (loginWorld w sid u name email).sessions =
              w.sessions.map (fun e =>
                if e.1 = sid then (sid, ⟨some u, some name, some email, true⟩) else e)
            from rfl]
        rw [lookup_map_update_ne _ hsd]
        exact hlook'
  | disconnect sid s hs =>
    have hsess : ∀ sd s', sd ≠ sid → List.lookup sd w.sessions = some s' →
        List.lookup sd (disconnectWorld w sid s).sessions = some s' := by
      intro sd s' hnesd hlook
      show List.lookup sd (w.sessions.filter _) = some s'
      rw [lookup_filter_ne hnesd]
      exact hlook
    have hkeys : ((disconnectWorld w sid s).sessions.map Prod.fst).Nodup :=
      keys_filter_nodup _ hsn
    have hregsub : ∀ e, e ∈ (disconnectWorld w sid s).registry → e ∈ w.registry := by
      intro e hmem
      show e ∈ w.registry
      unfold disconnectWorld teardownReg at hmem
      split at hmem
      · split at hmem
        · split at hmem
          · exact hmem
          · exact List.mem_of_mem_filter hmem
        · exact hmem
      · exact hmem
    have hregnd : ((disconnectWorld w sid s).registry.map Prod.fst).Nodup := by
      unfold disconnectWorld teardownReg
      split
      · split
        · split
          · exact hrn
          · exact keys_filter_nodup _ hrn
        · exact hrn
      · exact hrn
    refine ⟨hkeys, hregnd, fun sd hmem => hne sd (hregsub _ hmem), ?_⟩
    intro u' sd hmem
    have hmemreg := hregsub _ hmem
    obtain ⟨s', hlook', hauth', huid'⟩ := hok u' sd hmemreg
    have hsd : sd ≠ sid := by
      intro h
      subst h
      rw [hlook'] at hs
      injection hs with hss
      subst hss
      -- the registry entry (u', sid) points at the disconnecting session:
      -- impossible in every teardown branch
      unfold disconnectWorld teardownReg at hmem
      rw [hauth'] at hmem
      simp only [if_true] at hmem
      rw [huid'] at hmem
      by_cases hu' : u' = ""
      · subst hu'
        exact hne sd hmemreg
      · simp only [if_neg hu'] at hmem
        have := List.of_mem_filter hmem
        simp at this
    exact ⟨s', hsess sd s' hsd hlook', hauth', huid'⟩

/-- Every reachable world satisfies the registry invariant. -/
theorem inv_reachable {w : World} (h : Reachable w) : RegInv w := by
  induction h with
  | init => exact ⟨List.nodup_nil, List.nodup_nil, by simp, by intro u sid h; simp at h⟩
  | step _ hstep ih => exact inv_step ih hstep

/-- The double-login world: session 1 connects and authenticates as
user `u0`, then session 2 connects and authenticates as the same user,
evicting session 1's registry entry. -/
theorem reachable_double_login :
    Reachable (loginWorld
      (connectWorld (loginWorld (connectWorld ⟨[], []⟩ 1) 1 "u0" "A" "a@x") 2)
      2 "u0" "B" "b@x") :=
  Reachable.step
    (Reachable.step
      (Reachable.step
        (Reachable.step Reachable.init (Step.connect _ 1 rfl))
        (Step.loginOk _ 1 freshSession "u0" "A" "a@x" rfl rfl (by decide)))
      (Step.connect _ 2 rfl))
    (Step.loginOk _ 2 freshSession "u0" "B" "b@x" rfl rfl (by decide))

/-- C4 counterexample: after a second login for the same user id, the
registry has one entry while two sessions are in the AUTH state, so
`|registry|` does not equal the number of AUTH sessions. -/
theorem C4_counterexample_registry_cardinality :
    ∃ w : World, Reachable w ∧ w.registry.length ≠ authCount w :=
  ⟨_, reachable_double_login, by decide⟩

/-- C4 as amended: at every reachable instant the registry is at most
as large as the set of AUTH sessions (equality fails after a re-login
eviction orphans the older session), and every registry entry maps a
user id to a session authenticated under that id. -/
theorem C4_amended_registry_le_auth (w : World) (hw : Reachable w) :
    entryOk w ∧ w.registry.length ≤ authCount w :=
  have hinv := inv_reachable hw
  ⟨hinv.2.2.2, registry_length_le_authCount w hinv⟩

/-- Witness for the amended C4 at the double-login world, where the
inequality is strict. -/
theorem C4_amended_registry_le_auth_witness :
    entryOk (loginWorld
      (connectWorld (loginWorld (connectWorld ⟨[], []⟩ 1) 1 "u0" "A" "a@x") 2)
      2 "u0" "B" "b@x") ∧
    (loginWorld
      (connectWorld (loginWorld (connectWorld ⟨[], []⟩ 1) 1 "u0" "A" "a@x") 2)
      2 "u0" "B" "b@x").registry.length ≤
      authCount (loginWorld
        (connectWorld (loginWorld (connectWorld ⟨[], []⟩ 1) 1 "u0" "A" "a@x") 2)
        2 "u0" "B" "b@x") :=
  C4_amended_registry_le_auth _ reachable_double_login

/-- C5: if session `s1` authenticates as `u`, then session `s2`
authenticates as the same `u` (overwriting the entry), and then `s1`'s
connection closes, the teardown unregisters `u` and deletes `s2`'s
entry even though `s2` is still connected and authenticated; afterwards
`u` is absent from the registry and from `whoisonline`, and chats
addressed to `u` are persisted as offline. -/
theorem C5_teardown_deletes_survivor_entry (w : World) (s1 s2 : Nat)
    (t1 t2 : SessionSt) (u name1 email1 name2 email2 : String)
    (hreach : Reachable w)
    (h1 : List.lookup s1 w.sessions = some t1)
    (hna1 : t1.is_authenticated = false)
    (h2 : List.lookup s2 w.sessions = some t2)
    (hna2 : t2.is_authenticated = false)
    (h12 : s1 ≠ s2) (hu : u ≠ "") :
    ∀ w3, w3 = disconnectWorld
        (loginWorld (loginWorld w s1 u name1 email1) s2 u name2 email2)
        s1 ⟨some u, some name1, some email1, true⟩ →
      List.lookup s2 w3.sessions = some ⟨some u, some name2, some email2, true⟩ ∧
      List.lookup u w3.registry = none ∧
      (∀ x y, JVal.jobj [("id", x), ("full_name", y)] ∈ get_online_users_list w3 →
        x ≠ .jstr u) ∧
      (∀ (sender : SessionSt) (envFields pf : List (String × JVal)) (t : String),
        jget envFields "payload" = some (.jobj pf) →
        jget pf "recipient_id" = some (.jstr u) →
        jget pf "text" = some (.jstr t) →
        route_chat_message sender (.jobj envFields)
            (fun r => get_session_by_id r w3.registry) =
          some [.store sender.user_id (.jstr u) t,
                .reply (responseEnv "info" "Recipient is offline. Message stored.")]) := by
  intro w3 hw3
  subst hw3
  have hl2w1 : List.lookup s2 (loginWorld w s1 u name1 email1).sessions = some t2 := by
    show List.lookup s2 (w.sessions.map _) = some t2
    rw [lookup_map_update_ne _ (Ne.symm h12)]
    exact h2
  have hl1w2 : List.lookup s1
      (loginWorld (loginWorld w s1 u name1 email1) s2 u name2 email2).sessions =
      some ⟨some u, some name1, some email1, true⟩ := by
    show List.lookup s1 ((loginWorld w s1 u name1 email1).sessions.map _) = _
    rw [lookup_map_update_ne _ h12]
    exact lookup_map_update_self _ h1
  have hinv3 : RegInv (disconnectWorld
      (loginWorld (loginWorld w s1 u name1 email1) s2 u name2 email2)
      s1 ⟨some u, some name1, some email1, true⟩) :=
    inv_step
      (inv_step
        (inv_step (inv_reachable hreach)
          (Step.loginOk w s1 t1 u name1 email1 h1 hna1 hu))
        (Step.loginOk _ s2 t2 u name2 email2 hl2w1 hna2 hu))
      (Step.disconnect _ s1 ⟨some u, some name1, some email1, true⟩ hl1w2)
  have hreg3 : (disconnectWorld
      (loginWorld (loginWorld w s1 u name1 email1) s2 u name2 email2)
      s1 ⟨some u, some name1, some email1, true⟩).registry =
      unregister_user u
        (loginWorld (loginWorld w s1 u name1 email1) s2 u name2 email2).registry := by
    simp [disconnectWorld, teardownReg, hu]
  have hulook : List.lookup u (disconnectWorld
      (loginWorld (loginWorld w s1 u name1 email1) s2 u name2 email2)
      s1 ⟨some u, some name1, some email1, true⟩).registry = none := by
    rw [hreg3]
    exact lookup_filter_self u _
  refine ⟨?_, hulook, ?_, ?_⟩
  · show List.lookup s2 (List.filter _ _) = _
    rw [lookup_filter_ne (Ne.symm h12)]
    exact lookup_map_update_self _ hl2w1
  · intro x y hmem
    obtain ⟨⟨u', sd⟩, hemem, hfe⟩ := List.mem_filterMap.mp hmem
    obtain ⟨s', hlook', hauth', huid'⟩ := hinv3.2.2.2 u' sd hemem
    have hu'ne : u' ≠ u := by
      rw [hreg3] at hemem
      have := List.of_mem_filter hemem
      simpa using this
    simp only [hlook', hauth', if_true, huid'] at hfe
    injection hfe with hfe'
    injection hfe' with hfe''
    -- the "id" field of the produced object is the session's user id
    have hx : x = .jstr u' := by
      have := congrArg (fun l => jget l "id") hfe''
      simpa [jget, optStr] using this.symm
    subst hx
    intro hxx
    injection hxx with hxs
    exact hu'ne hxs
  · intro sender envFields pf t hpay hrid htext
    simp only [route_chat_message, hpay, hrid, htext, get_session_by_id, hulook]

/-- Witness for C5 on a concrete double-login-then-disconnect trace. -/
theorem C5_teardown_deletes_survivor_entry_witness :
    List.lookup 2 (disconnectWorld
        (loginWorld (loginWorld (connectWorld (connectWorld ⟨[], []⟩ 1) 2)
          1 "u0" "A" "a@x") 2 "u0" "B" "b@x")
        1 ⟨some "u0", some "A", some "a@x", true⟩).sessions =
      some ⟨some "u0", some "B", some "b@x", true⟩ ∧
    List.lookup "u0" (disconnectWorld
        (loginWorld (loginWorld (connectWorld (connectWorld ⟨[], []⟩ 1) 2)
          1 "u0" "A" "a@x") 2 "u0" "B" "b@x")
        1 ⟨some "u0", some "A", some "a@x", true⟩).registry = none ∧
    (∀ x y, JVal.jobj [("id", x), ("full_name", y)] ∈
        get_online_users_list (disconnectWorld
          (loginWorld (loginWorld (connectWorld (connectWorld ⟨[], []⟩ 1) 2)
            1 "u0" "A" "a@x") 2 "u0" "B" "b@x")
          1 ⟨some "u0", some "A", some "a@x", true⟩) →
      x ≠ .jstr "u0") ∧
    (∀ (sender : SessionSt) (envFields pf : List (String × JVal)) (t : String),
      jget envFields "payload" = some (.jobj pf) →
      jget pf "recipient_id" = some (.jstr "u0") →
      jget pf "text" = some (.jstr t) →
      route_chat_message sender (.jobj envFields)
          (fun r => get_session_by_id r (disconnectWorld
            (loginWorld (loginWorld (connectWorld (connectWorld ⟨[], []⟩ 1) 2)
              1 "u0" "A" "a@x") 2 "u0" "B" "b@x")
            1 ⟨some "u0", some "A", some "a@x", true⟩).registry) =
        some [.store sender.user_id (.jstr "u0") t,
              .reply (responseEnv "info" "Recipient is offline. Message stored.")]) :=
  C5_teardown_deletes_survivor_entry
    (connectWorld (connectWorld ⟨[], []⟩ 1) 2) 1 2 freshSession freshSession
    "u0" "A" "a@x" "B" "b@x"
    (Reachable.step (Reachable.step Reachable.init (Step.connect _ 1 rfl))
      (Step.connect _ 2 rfl))
    rfl rfl rfl rfl (by decide) (by decide) _ rfl

/-- `Char.ofNat` on a valid scalar value round-trips its code point. -/
theorem char_toNat_ofNat {n : Nat} (h : n.isValidChar) : (Char.ofNat n).toNat = n := by
  rw [Char.ofNat, dif_pos h]
  rfl

/-- Code point of the ASCII-lowered character. -/
theorem pyLowerChar_toNat (c : Char) :
    (pyLowerChar c).toNat =
      if 65 ≤ c.toNat ∧ c.toNat ≤ 90 then c.toNat + 32 else c.toNat := by
  unfold pyLowerChar
  by_cases h : 65 ≤ c.toNat ∧ c.toNat ≤ 90
  · rw [if_pos h, if_pos h]
    exact char_toNat_ofNat (Or.inl (by omega))
  · rw [if_neg h, if_neg h]

/-- Lowercasing does not change whether a character is whitespace. -/
theorem pyIsSpace_pyLowerChar (c : Char) : pyIsSpace (pyLowerChar c) = pyIsSpace c := by
  unfold pyIsSpace
  rw [pyLowerChar_toNat]
  by_cases h : 65 ≤ c.toNat ∧ c.toNat ≤ 90
  · rw [if_pos h]
    simp only [decide_eq_decide]
    omega
  · rw [if_neg h]

/-- ASCII lowering is idempotent. -/
theorem pyLowerChar_idem (c : Char) : pyLowerChar (pyLowerChar c) = pyLowerChar c := by
  have hno : ¬ (65 ≤ (pyLowerChar c).toNat ∧ (pyLowerChar c).toNat ≤ 90) := by
    rw [pyLowerChar_toNat]
    by_cases h : 65 ≤ c.toNat ∧ c.toNat ≤ 90
    · rw [if_pos h]; omega
    · rw [if_neg h]; omega
  set d := pyLowerChar c with hd
  unfold pyLowerChar
  rw [if_neg hno]

/-- Dropping a satisfied-predicate prefix twice equals dropping once. -/
theorem dropWhile_idem {α : Type} (p : α → Bool) (l : List α) :
    (l.dropWhile p).dropWhile p = l.dropWhile p := by
  induction l with
  | nil => rfl
  | cons a t ih =>
    rw [List.dropWhile_cons]
    by_cases h : p a
    · rw [if_pos h, ih]
    · rw [if_neg h, List.dropWhile_cons, if_neg h]

/-- If a list already starts with a failing element, so does any of its
initial segments. -/
theorem dropWhile_eq_self_of_append {α : Type} (p : α → Bool) (z t : List α)
    (h : (z ++ t).dropWhile p = z ++ t) : z.dropWhile p = z := by
  cases z with
  | nil => rfl
  | cons a z' =>
    rw [List.cons_append, List.dropWhile_cons] at h
    by_cases hp : p a
    · rw [if_pos hp] at h
      have hle := (List.dropWhile_sublist p (l := z' ++ t)).length_le
      have hlen := congrArg List.length h
      simp only [List.length_cons] at hlen
      omega
    · rw [List.dropWhile_cons, if_neg hp]

/-- `str.strip()` is idempotent. -/
theorem pyStrip_idem (l : List Char) : pyStrip (pyStrip l) = pyStrip l := by
  obtain ⟨t, ht⟩ :=
    List.dropWhile_suffix (l := (l.dropWhile pyIsSpace).reverse) pyIsSpace
  -- ht : t ++ (l.dropWhile pyIsSpace).reverse.dropWhile pyIsSpace
  --        = (l.dropWhile pyIsSpace).reverse
  have hyz : l.dropWhile pyIsSpace =
      ((l.dropWhile pyIsSpace).reverse.dropWhile pyIsSpace).reverse ++ t.reverse := by
    have h2 := congrArg List.reverse ht
    rw [List.reverse_append, List.reverse_reverse] at h2
    exact h2.symm
  have hz1 : (((l.dropWhile pyIsSpace).reverse.dropWhile pyIsSpace).reverse).dropWhile
      pyIsSpace = ((l.dropWhile pyIsSpace).reverse.dropWhile pyIsSpace).reverse := by
    refine dropWhile_eq_self_of_append pyIsSpace _ t.reverse ?_
    rw [← hyz]
    exact dropWhile_idem pyIsSpace l
  show ((((((l.dropWhile pyIsSpace).reverse.dropWhile pyIsSpace).reverse).dropWhile
      pyIsSpace)).reverse.dropWhile pyIsSpace).reverse = _
  rw [hz1, List.reverse_reverse, dropWhile_idem]
  rfl

/-- `strip` then `lower` equals `lower` then `strip`. -/
theorem pyStrip_pyLower_comm (l : List Char) :
    pyStrip (pyLower l) = pyLower (pyStrip l) := by
  have hpf : (pyIsSpace ∘ pyLowerChar) = pyIsSpace :=
    funext pyIsSpace_pyLowerChar
  show (((l.map pyLowerChar).dropWhile pyIsSpace).reverse.dropWhile pyIsSpace).reverse =
    (((l.dropWhile pyIsSpace).reverse.dropWhile pyIsSpace).reverse).map pyLowerChar
  rw [List.dropWhile_map, hpf, ← List.map_reverse, List.dropWhile_map, hpf,
    ← List.map_reverse]

/-- Normalization (`strip` then `lower`) is idempotent. -/
theorem normalizeEmail_idem (e : List Char) :
    normalizeEmail (normalizeEmail e) = normalizeEmail e := by
  unfold normalizeEmail
  rw [pyStrip_pyLower_comm (pyStrip e), pyStrip_idem]
  show ((pyStrip e).map pyLowerChar).map pyLowerChar = (pyStrip e).map pyLowerChar
  rw [List.map_map, show (pyLowerChar ∘ pyLowerChar) = pyLowerChar from
    funext pyLowerChar_idem]

/-- C10: the derived user id is a pure function of the normalized email
(`user_id(e) = user_id(normalize(e))`) and equals UUIDv5 over the DNS
namespace of the normalized email. -/
theorem C10_user_id_of_normalized_email (e : List Char) :
    generate_user_id e = generate_user_id (normalizeEmail e) ∧
    generate_user_id e = uuid5 namespaceDNS (utf8Encode (normalizeEmail e)) :=
  ⟨by unfold generate_user_id; rw [normalizeEmail_idem], rfl⟩

set_option maxRecDepth 20000 in
example : generate_user_id "  Alice@Example.COM ".data =
    "edabafbb-61ad-51d6-9fd8-e976c892a731" := by decide

/-- The alphabet maps are mutually inverse on sextets. -/
theorem b64Val_b64Char : ∀ n, n < 64 → b64Val (b64Char n) = some n := by decide

/-- No sextet encodes to the pad character. -/
theorem b64Char_ne_pad : ∀ n, n < 64 → b64Char n ≠ 61 := by decide

/-- Base64 round-trip on byte strings. -/
theorem b64decode_b64encode : ∀ (bs : List Nat), Bytes bs →
    b64decode (b64encode bs) = some bs := by
  intro bs
  induction bs using b64encode.induct with
  | case1 => intro _; rfl
  | case2 a =>
    intro hb
    have ha : a < 256 := hb a (List.mem_singleton.mpr rfl)
    show b64decode [b64Char (a / 4), b64Char (a % 4 * 16), 61, 61] = some [a]
    rw [b64decode, b64Val_b64Char _ (by omega), b64Val_b64Char _ (by omega)]
    simp only [and_self, reduceIte]
    have h1 : a / 4 * 4 + a % 4 * 16 / 16 = a := by omega
    rw [h1]
  | case3 a b =>
    intro hb
    have ha : a < 256 := hb a (by simp)
    have hbb : b < 256 := hb b (by simp)
    show b64decode [b64Char (a / 4), b64Char (a % 4 * 16 + b / 16),
      b64Char (b % 16 * 4), 61] = some [a, b]
    rw [b64decode, b64Val_b64Char _ (by omega), b64Val_b64Char _ (by omega),
      b64Val_b64Char _ (by omega)]
    have hne : b64Char (b % 16 * 4) ≠ 61 := b64Char_ne_pad _ (by omega)
    simp [hne]
    omega
  | case4 a b c rest ih =>
    intro hb
    have ha : a < 256 := hb a (by simp)
    have hbb : b < 256 := hb b (by simp)
    have hc : c < 256 := hb c (by simp)
    have hrest : Bytes rest := by
      intro x hx
      exact hb x (by simp [hx])
    show b64decode (b64Char (a / 4) :: b64Char (a % 4 * 16 + b / 16) ::
      b64Char (b % 16 * 4 + c / 64) :: b64Char (c % 64) :: b64encode rest) =
      some (a :: b :: c :: rest)
    rw [b64decode, b64Val_b64Char _ (by omega), b64Val_b64Char _ (by omega),
      b64Val_b64Char _ (by omega), b64Val_b64Char _ (by omega), ih hrest]
    have hne3 : b64Char (b % 16 * 4 + c / 64) ≠ 61 := b64Char_ne_pad _ (by omega)
    have hne4 : b64Char (c % 64) ≠ 61 := b64Char_ne_pad _ (by omega)
    simp [hne3, hne4]
    omega

/-- A scalar value is below the surrogate range or above it. -/
theorem char_valid_cases (c : Char) :
    c.toNat < 55296 ∨ (57343 < c.toNat ∧ c.toNat < 1114112) := by
  rcases c.valid with h | ⟨h1, h2⟩
  · exact Or.inl h
  · exact Or.inr ⟨h1, h2⟩

/-- Unfolding lemma: decoding a nonempty byte string decodes its first
character. -/
theorem utf8Decode_cons_some {b1 : Nat} {t1 : List Nat} {c : Char} {rest : List Nat}
    (h : utf8DecodeChar b1 t1 = some (c, rest)) :
    utf8Decode (b1 :: t1) = (utf8Decode rest).map (fun cs => c :: cs) := by
  rw [utf8Decode]
  split
  · rename_i c' rest' h'
    rw [h] at h'
    injection h' with h''
    injection h'' with hc hr
    subst hc
    subst hr
    rfl
  · rename_i h'
    rw [h] at h'
    exact Option.noConfusion h'

/-- Each encoded character decodes back to itself, leaving the rest. -/
theorem utf8DecodeChar_encodeChar (c : Char) (rest : List Nat) :
    ∃ b1 tl, utf8EncodeChar c = b1 :: tl ∧
      utf8DecodeChar b1 (tl ++ rest) = some (c, rest) := by
  have hval := char_valid_cases c
  by_cases h1 : c.toNat < 128
  · refine ⟨c.toNat, [], by rw [utf8EncodeChar, if_pos h1], ?_⟩
    unfold utf8DecodeChar
    rw [if_pos h1, Char.ofNat_toNat]
    rw [List.nil_append]
  · by_cases h2 : c.toNat < 2048
    · have hcb : contByte (128 + c.toNat % 64) = true := by
        simp only [contByte, Bool.and_eq_true, decide_eq_true_eq]
        omega
      have hv : (192 + c.toNat / 64 - 192) * 64 + (128 + c.toNat % 64 - 128) =
          c.toNat := by omega
      refine ⟨192 + c.toNat / 64, [128 + c.toNat % 64],
        by rw [utf8EncodeChar, if_neg h1, if_pos h2], ?_⟩
      unfold utf8DecodeChar
      simp only [if_neg (by omega : ¬ (192 + c.toNat / 64 < 128)),
        if_neg (by omega : ¬ (192 + c.toNat / 64 < 192)),
        if_pos (by omega : 192 + c.toNat / 64 < 224),
        List.singleton_append, hcb, if_true, hv,
        if_pos (by omega : 128 ≤ c.toNat), Char.ofNat_toNat]
    · by_cases h3 : c.toNat < 65536
      · have hcb2 : contByte (128 + c.toNat / 64 % 64) = true := by
          simp only [contByte, Bool.and_eq_true, decide_eq_true_eq]
          omega
        have hcb3 : contByte (128 + c.toNat % 64) = true := by
          simp only [contByte, Bool.and_eq_true, decide_eq_true_eq]
          omega
        have hv : (224 + c.toNat / 4096 - 224) * 4096 +
            (128 + c.toNat / 64 % 64 - 128) * 64 + (128 + c.toNat % 64 - 128) =
            c.toNat := by omega
        refine ⟨224 + c.toNat / 4096, [128 + c.toNat / 64 % 64, 128 + c.toNat % 64],
          by rw [utf8EncodeChar, if_neg h1, if_neg h2, if_pos h3], ?_⟩
        unfold utf8DecodeChar
        simp only [if_neg (by omega : ¬ (224 + c.toNat / 4096 < 128)),
          if_neg (by omega : ¬ (224 + c.toNat / 4096 < 192)),
          if_neg (by omega : ¬ (224 + c.toNat / 4096 < 224)),
          if_pos (by omega : 224 + c.toNat / 4096 < 240),
          List.cons_append, List.singleton_append, hcb2, hcb3, Bool.and_self,
          if_true, hv]
        rw [if_pos (by have := hval; omega), Char.ofNat_toNat, List.nil_append]
      · have hlt : c.toNat < 1114112 := by have := hval; omega
        have hcb2 : contByte (128 + c.toNat / 4096 % 64) = true := by
          simp only [contByte, Bool.and_eq_true, decide_eq_true_eq]
          omega
        have hcb3 : contByte (128 + c.toNat / 64 % 64) = true := by
          simp only [contByte, Bool.and_eq_true, decide_eq_true_eq]
          omega
        have hcb4 : contByte (128 + c.toNat % 64) = true := by
          simp only [contByte, Bool.and_eq_true, decide_eq_true_eq]
          omega
        have hv : (240 + c.toNat / 262144 - 240) * 262144 +
            (128 + c.toNat / 4096 % 64 - 128) * 4096 +
            (128 + c.toNat / 64 % 64 - 128) * 64 + (128 + c.toNat % 64 - 128) =
            c.toNat := by omega
        refine ⟨240 + c.toNat / 262144,
          [128 + c.toNat / 4096 % 64, 128 + c.toNat / 64 % 64, 128 + c.toNat % 64],
          by rw [utf8EncodeChar, if_neg h1, if_neg h2, if_neg h3], ?_⟩
        unfold utf8DecodeChar
        simp only [if_neg (by omega : ¬ (240 + c.toNat / 262144 < 128)),
          if_neg (by omega : ¬ (240 + c.toNat / 262144 < 192)),
          if_neg (by omega : ¬ (240 + c.toNat / 262144 < 224)),
          if_neg (by omega : ¬ (240 + c.toNat / 262144 < 240)),
          if_pos (by omega : 240 + c.toNat / 262144 < 245),
          List.cons_append, List.singleton_append, hcb2, hcb3, hcb4,
          Bool.and_self, if_true, hv]
        rw [if_pos (by omega), Char.ofNat_toNat, List.nil_append]

/-- Decoding picks the encoded character back off the front. -/
theorem utf8Decode_utf8EncodeChar (c : Char) (rest : List Nat) :
    utf8Decode (utf8EncodeChar c ++ rest) =
      (utf8Decode rest).map (fun cs => c :: cs) := by
  obtain ⟨b1, tl, henc, hdec⟩ := utf8DecodeChar_encodeChar c rest
  rw [henc, List.cons_append]
  exact utf8Decode_cons_some hdec

/-- UTF-8 round-trip. -/
theorem utf8Decode_utf8Encode (s : List Char) : utf8Decode (utf8Encode s) = some s := by
  induction s with
  | nil =>
    rw [show utf8Encode ([] : List Char) = [] from rfl, utf8Decode]
  | cons c t ih =>
    show utf8Decode (utf8EncodeChar c ++ utf8Encode t) = some (c :: t)
    rw [utf8Decode_utf8EncodeChar, ih]
    rfl

/-- UTF-8 encodings are byte strings. -/
theorem bytes_utf8Encode (s : List Char) : Bytes (utf8Encode s) := by
  induction s with
  | nil => intro b hb; simp [utf8Encode] at hb
  | cons c t ih =>
    intro b hb
    have hsplit : b ∈ utf8EncodeChar c ∨ b ∈ utf8Encode t := by
      have : utf8Encode (c :: t) = utf8EncodeChar c ++ utf8Encode t := rfl
      rw [this, List.mem_append] at hb
      exact hb
    rcases hsplit with hmem | hmem
    · have hval := char_valid_cases c
      unfold utf8EncodeChar at hmem
      split at hmem
      · simp only [List.mem_singleton] at hmem
        omega
      · split at hmem
        · simp only [List.mem_cons, List.not_mem_nil, or_false] at hmem
          rcases hmem with h | h <;> omega
        · split at hmem
          · simp only [List.mem_cons, List.not_mem_nil, or_false] at hmem
            rcases hmem with h | h | h <;> omega
          · simp only [List.mem_cons, List.not_mem_nil, or_false] at hmem
            rcases hmem with h | h | h | h <;> omega
    · exact ih b hmem

/-- XOR with a nonzero mask moves every value. -/
theorem xor_ne_self {x m : Nat} (hm : m ≠ 0) : x ^^^ m ≠ x := by
  intro h
  refine hm ?_
  calc m = x ^^^ (x ^^^ m) := (Nat.xor_cancel_left x m).symm
    _ = x ^^^ x := by rw [h]
    _ = 0 := Nat.xor_self x

/-- `getD` after `set` at the written index. -/
theorem getD_set_self {l : List Nat} {i : Nat} (v : Nat) (hi : i < l.length) :
    (l.set i v).getD i 0 = v := by
  rw [List.getD_eq_getElem?_getD, List.getElem?_set_self hi]
  rfl

/-- Flipping stored bits changes the list. -/
theorem set_getD_xor_ne {l : List Nat} {i m : Nat} (hi : i < l.length) (hm : m ≠ 0) :
    l.set i (l.getD i 0 ^^^ m) ≠ l := by
  intro h
  have h1 : (l.set i (l.getD i 0 ^^^ m)).getD i 0 = l.getD i 0 := by rw [h]
  rw [getD_set_self _ hi] at h1
  exact xor_ne_self hm h1

/-- `getD` looks in the left part of an append below its length. -/
theorem getD_append_left {l1 l2 : List Nat} {i : Nat} (h : i < l1.length) :
    (l1 ++ l2).getD i 0 = l1.getD i 0 := by
  rw [List.getD_eq_getElem?_getD, List.getD_eq_getElem?_getD,
    List.getElem?_append_left h]

/-- `getD` looks in the right part of an append past the left length. -/
theorem getD_append_right {l1 l2 : List Nat} {i : Nat} (h : l1.length ≤ i) :
    (l1 ++ l2).getD i 0 = l2.getD (i - l1.length) 0 := by
  rw [List.getD_eq_getElem?_getD, List.getD_eq_getElem?_getD,
    List.getElem?_append_right h]

/-- The XOR checksum of a cons. -/
theorem xorsum_cons (a : Nat) (t : List Nat) : xorsum (a :: t) = a ^^^ xorsum t := rfl

/-- Flipping bits of one byte flips the same bits of the checksum. -/
theorem xorsum_set {l : List Nat} {m : Nat} :
    ∀ {i : Nat}, i < l.length →
      xorsum (l.set i (l.getD i 0 ^^^ m)) = xorsum l ^^^ m := by
  induction l with
  | nil => intro i hi; simp at hi
  | cons a t ih =>
    intro i hi
    cases i with
    | zero =>
      show xorsum ((a ^^^ m) :: t) = xorsum (a :: t) ^^^ m
      rw [xorsum_cons, xorsum_cons, Nat.xor_assoc, Nat.xor_comm m (xorsum t),
        ← Nat.xor_assoc]
    | succ i' =>
      show xorsum (a :: t.set i' (t.getD i' 0 ^^^ m)) = xorsum (a :: t) ^^^ m
      rw [xorsum_cons, xorsum_cons, ih (by simpa using hi), ← Nat.xor_assoc]

/-- The XOR checksum of a byte string is a byte. -/
theorem xorsum_lt {l : List Nat} (h : Bytes l) : xorsum l < 256 := by
  induction l with
  | nil => decide
  | cons a t ih =>
    rw [xorsum_cons]
    have h1 : a < 256 := h a (by simp)
    have h2 : xorsum t < 256 := ih (fun b hb => h b (by simp [hb]))
    exact Nat.xor_lt_two_pow (n := 8) h1 h2

/-- The flip mask is a nonzero byte. -/
theorem flip_mask_facts (j : Nat) : 2 ^ (j % 8) ≠ 0 ∧ 2 ^ (j % 8) < 256 := by
  have h8 : j % 8 < 8 := Nat.mod_lt _ (by omega)
  constructor
  · exact (Nat.pow_pos (by decide)).ne'
  · calc 2 ^ (j % 8) ≤ 2 ^ 7 := Nat.pow_le_pow_right (by decide) (by omega)
      _ < 256 := by decide

/-- `getD` of a byte string is a byte. -/
theorem getD_lt_of_bytes {l : List Nat} (h : Bytes l) (i : Nat) : l.getD i 0 < 256 := by
  rcases Nat.lt_or_ge i l.length with hi | hi
  · rw [List.getD_eq_getElem?_getD, List.getElem?_eq_getElem hi]
    exact h _ (List.getElem_mem hi)
  · rw [List.getD_eq_getElem?_getD, List.getElem?_eq_none hi]
    decide

/-- Bit flips keep byte strings byte strings. -/
theorem bytes_flipBit {l : List Nat} (h : Bytes l) (j : Nat) : Bytes (flipBit j l) := by
  intro b hb
  rcases List.mem_or_eq_of_mem_set hb with hmem | rfl
  · exact h b hmem
  · exact Nat.xor_lt_two_pow (n := 8) (getD_lt_of_bytes h _) (flip_mask_facts j).2

/-- Byte strings are closed under append. -/
theorem bytes_append {l1 l2 : List Nat} (h1 : Bytes l1) (h2 : Bytes l2) :
    Bytes (l1 ++ l2) := by
  intro b hb
  rcases List.mem_append.mp hb with h | h
  · exact h1 b h
  · exact h2 b h

/-- The tag of the witness AEAD has 16 bytes for a 12-byte nonce. -/
theorem toyTag_length {nonce pt : List Nat} (hn : nonce.length = 12) :
    (toyTag nonce pt).length = 16 := by
  simp [toyTag, hn]

/-- The witness AEAD produces byte strings. -/
theorem toyAEAD_bytes : AESGCMBytes toyAEAD := by
  intro key nonce pt hn hpt
  refine bytes_append hpt (bytes_append hn ?_)
  intro b hb
  simp only [List.mem_cons, List.not_mem_nil, or_false] at hb
  rcases hb with rfl | rfl | rfl | rfl
  · exact xorsum_lt hpt
  all_goals decide

/-- The witness AEAD satisfies the decrypt-inverts-encrypt contract. -/
theorem toyAEAD_correct : AESGCMCorrect toyAEAD := by
  intro key nonce pt hk hn
  show (if (pt ++ toyTag nonce pt).length < 16 then none
    else if (pt ++ toyTag nonce pt).drop ((pt ++ toyTag nonce pt).length - 16) =
        toyTag nonce ((pt ++ toyTag nonce pt).take ((pt ++ toyTag nonce pt).length - 16))
      then some ((pt ++ toyTag nonce pt).take ((pt ++ toyTag nonce pt).length - 16))
    else none) = some pt
  have hlen : (pt ++ toyTag nonce pt).length = pt.length + 16 := by
    simp [toyTag_length hn]
  rw [hlen, if_neg (by omega), show pt.length + 16 - 16 = pt.length from by omega,
    List.take_left, List.drop_left, if_pos rfl]

/-- Unfolding of the witness AEAD decryption. -/
theorem toyDec_unfold (key nonce ct : List Nat) :
    toyAEAD.dec key nonce ct =
      if ct.length < 16 then none
      else if ct.drop (ct.length - 16) = toyTag nonce (ct.take (ct.length - 16)) then
        some (ct.take (ct.length - 16))
      else none := rfl

/-- The witness AEAD detects every single-bit flip of `nonce || ct`:
a flip in the nonce or tag region breaks the tag comparison directly,
and a flip in the message region moves the XOR checksum. -/
theorem toyAEAD_tamper : AESGCMTamper toyAEAD := by
  intro key nonce pt j hk hn hj
  obtain ⟨hm0, hm256⟩ := flip_mask_facts j
  have htlen : (toyTag nonce pt).length = 16 := toyTag_length hn
  have henc : toyAEAD.enc key nonce pt = pt ++ toyTag nonce pt := rfl
  rw [henc] at hj ⊢
  unfold flipBit
  set i := j / 8 with hidef
  set m := 2 ^ (j % 8) with hmdef
  have hlen3 : (nonce ++ (pt ++ toyTag nonce pt)).length = 12 + pt.length + 16 := by
    simp only [List.length_append, hn, htlen]
    omega
  have hi : i < 12 + pt.length + 16 := by
    rw [hlen3] at hj
    omega
  rcases Nat.lt_or_ge i 12 with hA | hge
  · -- the flipped bit lies in the 12-byte nonce prefix
    have hA12 : i < nonce.length := by omega
    rw [getD_append_left hA12, List.set_append_left _ _ hA12]
    have hnlen : (nonce.set i (nonce.getD i 0 ^^^ m)).length = 12 := by
      simp [hn]
    rw [List.take_left' hnlen, List.drop_left' hnlen, toyDec_unfold]
    have hctlen : (pt ++ toyTag nonce pt).length = pt.length + 16 := by
      simp [htlen]
    rw [hctlen, if_neg (by omega), show pt.length + 16 - 16 = pt.length from by omega,
      List.take_left, List.drop_left, if_neg ?_]
    intro heq
    have heq2 : nonce ++ [xorsum pt, 17, 17, 17] =
        nonce.set i (nonce.getD i 0 ^^^ m) ++ [xorsum pt, 17, 17, 17] := heq
    exact set_getD_xor_ne hA12 hm0 (List.append_cancel_right heq2).symm
  · rcases Nat.lt_or_ge i (12 + pt.length) with hB | hC
    · -- the flipped bit lies in the ciphertext body
      have hge12 : nonce.length ≤ i := by omega
      rw [getD_append_right hge12, List.set_append_right _ _ hge12]
      have hilt : i - nonce.length < pt.length := by omega
      rw [getD_append_left hilt, List.set_append_left _ _ hilt]
      rw [List.take_left' hn, List.drop_left' hn, toyDec_unfold]
      have hplen : (pt.set (i - nonce.length)
          (pt.getD (i - nonce.length) 0 ^^^ m)).length = pt.length := by simp
      have hctlen : (pt.set (i - nonce.length) (pt.getD (i - nonce.length) 0 ^^^ m) ++
          toyTag nonce pt).length = pt.length + 16 := by
        simp only [List.length_append, hplen, htlen]
      rw [hctlen, if_neg (by omega), show pt.length + 16 - 16 = pt.length from by omega,
        List.take_left' hplen, List.drop_left' hplen, if_neg ?_]
      intro heq
      have heq2 : nonce ++ [xorsum pt, 17, 17, 17] =
          nonce ++ [xorsum (pt.set (i - nonce.length)
            (pt.getD (i - nonce.length) 0 ^^^ m)), 17, 17, 17] := heq
      have heq3 := List.append_cancel_left heq2
      have heq4 : xorsum pt = xorsum (pt.set (i - nonce.length)
          (pt.getD (i - nonce.length) 0 ^^^ m)) := by
        injection heq3
      rw [xorsum_set hilt] at heq4
      exact xor_ne_self hm0 heq4.symm
    · -- the flipped bit lies in the 16-byte tag
      have hge12 : nonce.length ≤ i := by omega
      rw [getD_append_right hge12, List.set_append_right _ _ hge12]
      have hgep : pt.length ≤ i - nonce.length := by omega
      rw [getD_append_right hgep, List.set_append_right _ _ hgep]
      have hit : i - nonce.length - pt.length < (toyTag nonce pt).length := by
        rw [htlen]
        omega
      rw [List.take_left' hn, List.drop_left' hn, toyDec_unfold]
      have htglen : ((toyTag nonce pt).set (i - nonce.length - pt.length)
          ((toyTag nonce pt).getD (i - nonce.length - pt.length) 0 ^^^ m)).length = 16 := by
        rw [List.length_set, htlen]
      have hctlen : (pt ++ (toyTag nonce pt).set (i - nonce.length - pt.length)
          ((toyTag nonce pt).getD (i - nonce.length - pt.length) 0 ^^^ m)).length =
          pt.length + 16 := by
        simp only [List.length_append, htglen]
      rw [hctlen, if_neg (by omega), show pt.length + 16 - 16 = pt.length from by omega,
        List.take_left, List.drop_left, if_neg ?_]
      exact set_getD_xor_ne hit hm0

/-- `SecureChannel.decrypt` after a successful base64 decode. -/
theorem decrypt_of_b64 (A : AESGCMImpl) (ch : SecureChannel) (blob bs : List Nat)
    (h : b64decode blob = some bs) :
    SecureChannel.decrypt A ch blob =
      match A.dec ch.aes_key (bs.take 12) (bs.drop 12) with
      | none => none
      | some ptBytes => utf8Decode ptBytes := by
  unfold SecureChannel.decrypt
  rw [h]

/-- C2: over one `SecureChannel` holding a 32-byte key, and for any
AEAD implementation satisfying the `AESGCM` library contracts
(round-trip correctness, single-bit-tamper rejection, byte-valued
ciphertexts), `decrypt (encrypt m)` returns `m`; and flipping any
single bit of the base64-decoded blob produced by `encrypt` makes
`decrypt` fail with the one opaque decryption error (`none`). -/
theorem C2_decrypt_encrypt_roundtrip_and_single_bit_tamper
    (A : AESGCMImpl) (hc : AESGCMCorrect A) (ht : AESGCMTamper A) (hb : AESGCMBytes A)
    (ch : SecureChannel) (hkey : ch.aes_key.length = 32)
    (nonce : List Nat) (hn : nonce.length = 12) (hnb : Bytes nonce) (m : List Char) :
    SecureChannel.decrypt A ch (SecureChannel.encrypt A ch nonce m) = some m ∧
    ∀ bs, b64decode (SecureChannel.encrypt A ch nonce m) = some bs →
      ∀ j, j < 8 * bs.length →
        SecureChannel.decrypt A ch (b64encode (flipBit j bs)) = none := by
  have hbytes : Bytes (nonce ++ A.enc ch.aes_key nonce (utf8Encode m)) :=
    bytes_append hnb (hb ch.aes_key nonce (utf8Encode m) hnb (bytes_utf8Encode m))
  have henc : SecureChannel.encrypt A ch nonce m =
      b64encode (nonce ++ A.enc ch.aes_key nonce (utf8Encode m)) := rfl
  have hdecode : b64decode (SecureChannel.encrypt A ch nonce m) =
      some (nonce ++ A.enc ch.aes_key nonce (utf8Encode m)) := by
    rw [henc]
    exact b64decode_b64encode _ hbytes
  constructor
  · rw [decrypt_of_b64 A ch _ _ hdecode, List.take_left' hn, List.drop_left' hn,
      hc ch.aes_key nonce (utf8Encode m) hkey hn]
    exact utf8Decode_utf8Encode m
  · intro bs hbs j hj
    rw [hdecode] at hbs
    injection hbs with hbs
    subst hbs
    have hfb : Bytes (flipBit j (nonce ++ A.enc ch.aes_key nonce (utf8Encode m))) :=
      bytes_flipBit hbytes j
    rw [decrypt_of_b64 A ch _ _ (b64decode_b64encode _ hfb),
      ht ch.aes_key nonce (utf8Encode m) j hkey hn hj]

theorem C2_decrypt_encrypt_roundtrip_and_single_bit_tamper_witness :
    SecureChannel.decrypt toyAEAD ⟨List.replicate 32 0⟩
      (SecureChannel.encrypt toyAEAD ⟨List.replicate 32 0⟩ (List.replicate 12 0)
        ['h', 'i']) = some ['h', 'i'] ∧
    ∀ bs, b64decode (SecureChannel.encrypt toyAEAD ⟨List.replicate 32 0⟩
        (List.replicate 12 0) ['h', 'i']) = some bs →
      ∀ j, j < 8 * bs.length →
        SecureChannel.decrypt toyAEAD ⟨List.replicate 32 0⟩
          (b64encode (flipBit j bs)) = none :=
  C2_decrypt_encrypt_roundtrip_and_single_bit_tamper toyAEAD
    toyAEAD_correct toyAEAD_tamper toyAEAD_bytes
    ⟨List.replicate 32 0⟩ (by decide) (List.replicate 12 0) (by decide)
    (fun b hb => by rw [List.eq_of_mem_replicate hb]; decide) ['h', 'i']
